import Mathlib

/-!
A verification development for the WhatsApp OTPless authentication service.

JavaScript strings are modelled as lists of characters (`Str`), the D1
database as lists of rows, and the clock (`Date.now()/1000`) together with
the random generators (`generateRandomId`, `generateSecureToken`) as
explicit inputs of each operation.  `hashToken` (SHA-256) and `createJWT`
(HMAC signing) are abstract function parameters: the properties below do
not depend on their internals, only on their determinism.
-/

namespace WhatsAppAuth

/-- JavaScript strings, modelled as character lists. -/
abbrev Str := List Char

/-- JS `String.prototype.startsWith`. -/
def jsStartsWith (p s : Str) : Bool := p.isPrefixOf s

/-- JS `phone.replace(/\D/g, '')`: keep only the ASCII digits. -/
def stripNonDigits (s : Str) : Str := s.filter Char.isDigit

/-- `normalizePhoneNumber` from `src/utils/phone.ts` (the complete,
length-guarded variant): strip non-digits, collapse a 13-digit Mexican
mobile number `521XXXXXXXXXX` to `52XXXXXXXXXX`, then make sure the
result starts with a plus sign. -/
def normalizePhoneNumber (phoneNumber : Str) : Str :=
  let digitsOnly := stripNonDigits phoneNumber
  let normalizedDigits :=
    if jsStartsWith ['5', '2', '1'] digitsOnly && digitsOnly.length == 13 then
      digitsOnly.take 2 ++ digitsOnly.drop 3
    else digitsOnly
  if jsStartsWith ['+'] normalizedDigits then normalizedDigits
  else '+' :: normalizedDigits

/-- The superseded unguarded variant of `normalizePhoneNumber` that
appears later in `src/utils/phone.ts`: it rewrites any string starting
with `521`, with no length guard and no plus-sign handling. -/
def normalizePhoneNumberUnguarded (phoneNumber : Str) : Str :=
  if jsStartsWith ['5', '2', '1'] phoneNumber then
    ['5', '2'] ++ phoneNumber.drop 3
  else phoneNumber

/-- `AuthService.formatPhoneNumber` from `src/services/auth.ts`: strip
non-digits and prepend a plus sign.  (The `digits.startsWith('+')` test of
the source is kept even though a digits-only string can never pass it.) -/
def formatPhoneNumber (phone : Str) : Str :=
  let digits := stripNonDigits phone
  if jsStartsWith ['+'] digits then digits else '+' :: digits

/-! ### Token payloads and the base64/JSON codec -/

/-- The raw fields of a decoded JSON button payload; `none` models a field
that is missing or not of the expected JS type. -/
structure RawPayload where
  token : Option Str
  isNewUser : Option Bool
  phoneNumber : Option Str
  timestamp : Option Int
  expiresAt : Option Int
  sessionId : Option Str
deriving Repr, DecidableEq

/-- A base64 button payload: either it decodes (atob + JSON.parse) to an
object with the `RawPayload` fields, or decoding throws. -/
inductive Encoded where
  | payload (p : RawPayload)
  | malformed
deriving Repr, DecidableEq

/-- A structurally validated token payload (the `TokenPayload` interface);
`sessionId` stays optional because `decodeTokenPayload` never checks it. -/
structure TokenPayload where
  token : Str
  isNewUser : Bool
  phoneNumber : Str
  timestamp : Int
  expiresAt : Int
  sessionId : Option Str
deriving Repr, DecidableEq

/-- `VerificationService.decodeTokenPayload`: reject on decoding failure,
on a missing/mistyped/JS-falsy required field, and on
`expiresAt <= now`. -/
def decodeTokenPayload (now : Int) (encodedToken : Encoded) : Option TokenPayload :=
  match encodedToken with
  | .malformed => none
  | .payload p =>
    match p.token, p.isNewUser, p.phoneNumber, p.timestamp, p.expiresAt with
    | some tk, some inu, some ph, some ts, some ex =>
      if tk.isEmpty || ph.isEmpty || ts == 0 || ex == 0 then none
      else if ex ≤ now then none
      else some { token := tk, isNewUser := inu, phoneNumber := ph,
                  timestamp := ts, expiresAt := ex, sessionId := p.sessionId }
    | _, _, _, _, _ => none

/-! ### Database rows (migrations/init.sql) -/

/-- A row of `verification_tokens`. -/
structure VerificationTokenRow where
  id : Str
  token_hash : Str
  phone_number : Str
  expires_at : Int
  used_at : Option Int
  created_at : Int
deriving Repr, DecidableEq

/-- A row of `refresh_tokens`. -/
structure RefreshTokenRow where
  id : Str
  user_id : Str
  token_hash : Str
  expires_at : Int
  created_at : Int
  revoked_at : Option Int
deriving Repr, DecidableEq

/-- A row of `users`. -/
structure UserRow where
  id : Str
  phone_number : Str
  name : Option Str
  created_at : Int
  last_login : Int
deriving Repr, DecidableEq

/-- The D1 database state.  `first()` of a SELECT is modelled by
`List.find?` over the row list. -/
structure DB where
  users : List UserRow
  verification_tokens : List VerificationTokenRow
  refresh_tokens : List RefreshTokenRow
deriving Repr, DecidableEq

section Services

variable (hashToken : Str → Str)
variable (createJWT : Str → Int → Str)

/-! ### VerificationService -/

/-- `VerificationService.createVerificationToken`: build the payload
(`sessionId := tokenId`), hash the plain token and insert the row
(`expires_at = now + 10min`, `used_at = NULL`).  Returns the encoded
payload and the token id. -/
def createVerificationToken (now : Int) (tokenId plainToken : Str)
    (phoneNumber : Str) (isNewUser : Bool) (db : DB) : (Encoded × Str) × DB :=
  let expiresAt := now + 10 * 60
  let tokenPayload : RawPayload :=
    { token := some plainToken, isNewUser := some isNewUser,
      phoneNumber := some phoneNumber, timestamp := some now,
      expiresAt := some expiresAt, sessionId := some tokenId }
  let tokenHash := hashToken plainToken
  let row : VerificationTokenRow :=
    { id := tokenId, token_hash := tokenHash, phone_number := phoneNumber,
      expires_at := expiresAt, used_at := none, created_at := now }
  ((Encoded.payload tokenPayload, tokenId),
   { db with verification_tokens := db.verification_tokens ++ [row] })

/-- The WHERE clause of `validateAndConsumeToken`:
`token_hash = ? AND phone_number = ? AND expires_at > ? AND used_at IS NULL`. -/
def consumeMatch (tokenHash phoneNumber : Str) (now : Int)
    (r : VerificationTokenRow) : Bool :=
  r.token_hash == tokenHash && r.phone_number == phoneNumber
    && decide (now < r.expires_at) && r.used_at == none

/-- The WHERE clause of `validateTokenOnly`:
`token_hash = ? AND phone_number = ? AND expires_at > ?`
(the source omits the `used_at IS NULL` condition here). -/
def peekMatch (tokenHash phoneNumber : Str) (now : Int)
    (r : VerificationTokenRow) : Bool :=
  r.token_hash == tokenHash && r.phone_number == phoneNumber
    && decide (now < r.expires_at)

/-- Result record of `validateAndConsumeToken`. -/
structure ConsumeResult where
  isValid : Bool
  isNewUser : Option Bool
deriving Repr, DecidableEq

/-- `VerificationService.validateAndConsumeToken`: decode, check the
phone number, look the row up with `consumeMatch`, and on a hit set
`used_at = now` (UPDATE by the found row's id) and return the payload's
`isNewUser` flag. -/
def validateAndConsumeToken (now : Int) (encodedToken : Encoded)
    (phoneNumber : Str) (db : DB) : ConsumeResult × DB :=
  match decodeTokenPayload now encodedToken with
  | none => ({ isValid := false, isNewUser := none }, db)
  | some payload =>
    if payload.phoneNumber ≠ phoneNumber then
      ({ isValid := false, isNewUser := none }, db)
    else
      let tokenHash := hashToken payload.token
      match db.verification_tokens.find? (consumeMatch tokenHash phoneNumber now) with
      | none => ({ isValid := false, isNewUser := none }, db)
      | some tokenRecord =>
        ({ isValid := true, isNewUser := some payload.isNewUser },
         { db with verification_tokens := db.verification_tokens.map (fun r =>
             if r.id == tokenRecord.id then { r with used_at := some now } else r) })

/-- Result record of `validateTokenOnly`. -/
structure PeekResult where
  isValid : Bool
  isNewUser : Option Bool
  sessionId : Option Str
deriving Repr, DecidableEq

/-- `VerificationService.validateTokenOnly`: same decode and phone check
as `validateAndConsumeToken`, then a read-only lookup with `peekMatch`;
returns the found row's id as `sessionId` and performs no UPDATE. -/
def validateTokenOnly (now : Int) (encodedToken : Encoded)
    (phoneNumber : Str) (db : DB) : PeekResult × DB :=
  match decodeTokenPayload now encodedToken with
  | none => ({ isValid := false, isNewUser := none, sessionId := none }, db)
  | some payload =>
    if payload.phoneNumber ≠ phoneNumber then
      ({ isValid := false, isNewUser := none, sessionId := none }, db)
    else
      let tokenHash := hashToken payload.token
      let tokenRecord := db.verification_tokens.find? (peekMatch tokenHash phoneNumber now)
      ({ isValid := tokenRecord.isSome, isNewUser := some payload.isNewUser,
         sessionId := tokenRecord.map (fun r => r.id) }, db)

/-- `VerificationService.createRefreshToken`: hash the plain token and
insert the row with `expires_at = now + 30 days`, `revoked_at = NULL`.
Returns the plain token and the token id. -/
def createRefreshToken (now : Int) (tokenId plainToken userId : Str)
    (db : DB) : (Str × Str) × DB :=
  let tokenHash := hashToken plainToken
  let expiresAt := now + 30 * 24 * 60 * 60
  let row : RefreshTokenRow :=
    { id := tokenId, user_id := userId, token_hash := tokenHash,
      expires_at := expiresAt, created_at := now, revoked_at := none }
  ((plainToken, tokenId), { db with refresh_tokens := db.refresh_tokens ++ [row] })

/-- The WHERE clause of `validateRefreshToken`:
`token_hash = ? AND user_id = ? AND expires_at > ? AND revoked_at IS NULL`. -/
def refreshMatch (tokenHash userId : Str) (now : Int) (r : RefreshTokenRow) : Bool :=
  r.token_hash == tokenHash && r.user_id == userId
    && decide (now < r.expires_at) && r.revoked_at == none

/-- `VerificationService.validateRefreshToken`. -/
def validateRefreshToken (now : Int) (plainToken userId : Str)
    (db : DB) : Option RefreshTokenRow :=
  db.refresh_tokens.find? (refreshMatch (hashToken plainToken) userId now)

/-- `VerificationService.revokeRefreshToken`:
`UPDATE refresh_tokens SET revoked_at = now WHERE id = ?`. -/
def revokeRefreshToken (now : Int) (tokenId : Str) (db : DB) : DB :=
  { db with refresh_tokens := db.refresh_tokens.map (fun r =>
      if r.id == tokenId then { r with revoked_at := some now } else r) }

/-- `VerificationService.revokeAllUserRefreshTokens`:
`UPDATE refresh_tokens SET revoked_at = now WHERE user_id = ? AND revoked_at IS NULL`. -/
def revokeAllUserRefreshTokens (now : Int) (userId : Str) (db : DB) : DB :=
  { db with refresh_tokens := db.refresh_tokens.map (fun r =>
      if r.user_id == userId && r.revoked_at == none then
        { r with revoked_at := some now }
      else r) }

/-- `VerificationService.cleanupExpiredTokens`: hard-delete rows with
`expires_at < now` from both token tables. -/
def cleanupExpiredTokens (now : Int) (db : DB) : DB :=
  { db with
    verification_tokens :=
      db.verification_tokens.filter (fun r => !(decide (r.expires_at < now))),
    refresh_tokens :=
      db.refresh_tokens.filter (fun r => !(decide (r.expires_at < now))) }

/-! ### UserService -/

/-- `UserService.findUserByPhone`. -/
def findUserByPhone (phoneNumber : Str) (db : DB) : Option UserRow :=
  db.users.find? (fun u => u.phone_number == phoneNumber)

/-- `UserService.findUserById`. -/
def findUserById (userId : Str) (db : DB) : Option UserRow :=
  db.users.find? (fun u => u.id == userId)

/-- `UserService.createUser` (the fresh random id is an explicit input). -/
def createUser (now : Int) (userId phoneNumber : Str) (name : Option Str)
    (db : DB) : UserRow × DB :=
  let u : UserRow := { id := userId, phone_number := phoneNumber, name := name,
                       created_at := now, last_login := now }
  (u, { db with users := db.users ++ [u] })

/-- `UserService.updateLastLogin`. -/
def updateLastLogin (now : Int) (userId : Str) (db : DB) : DB :=
  { db with users := db.users.map (fun u =>
      if u.id == userId then { u with last_login := now } else u) }

/-! ### AuthService -/

/-- Result record of `AuthService.initiateLogin` (final variant). -/
structure InitiateResult where
  success : Bool
  sessionId : Option Str
  error : Option Str
deriving Repr, DecidableEq

/-- One call of `whatsappService.sendInteractiveButtonMessage` as observed
by `initiateLogin`: recipient, button text, button payload, body text. -/
structure SentMessage where
  recipient : Str
  buttonText : Str
  buttonPayload : Encoded
  bodyText : Str
deriving Repr, DecidableEq

/-- The signup body copy of `initiateLogin` (the exact wording is
irrelevant to the properties below; it carries no credential data). -/
def signupBodyText : Str := "signup-confirmation-copy".data

/-- The returning-user body copy of `initiateLogin`. -/
def welcomeBackBodyText : Str := "welcome-back-copy".data

/-- `AuthService.initiateLogin` (the complete variant returning a
`sessionId`): format the phone, look the user up to decide `isNewUser`,
create the verification token, send the WhatsApp button message, and
return `{success:true, sessionId:tokenId}` if the notifier resolved or
`{success:false, error:...}` if it threw.  `notifierOk` is the notifier
outcome; the third component lists the notifier calls made. -/
def initiateLogin (now : Int) (phoneNumber : Str) (tokenId plainToken : Str)
    (notifierOk : Bool) (db : DB) : InitiateResult × DB × List SentMessage :=
  let formattedPhone := formatPhoneNumber phoneNumber
  let existingUser := findUserByPhone formattedPhone db
  let isNewUser := existingUser.isNone
  let created := createVerificationToken hashToken now tokenId plainToken
      formattedPhone isNewUser db
  let encodedToken := created.1.1
  let tId := created.1.2
  let db1 := created.2
  let buttonText : Str := if isNewUser then "Sign Up".data else "Confirm Login".data
  let bodyText : Str := if isNewUser then signupBodyText else welcomeBackBodyText
  let msg : SentMessage :=
    { recipient := formattedPhone, buttonText := buttonText,
      buttonPayload := encodedToken, bodyText := bodyText }
  if notifierOk then
    ({ success := true, sessionId := some tId, error := none }, db1, [msg])
  else
    ({ success := false, sessionId := none,
       error := some "Failed to send WhatsApp message".data }, db1, [msg])

/-- Result record of `AuthService.verifyWebhookToken`. -/
structure AuthResult where
  accessToken : Str
  refreshToken : Str
  userId : Str
deriving Repr, DecidableEq

/-- `AuthService.verifyWebhookToken`: consume the verification token; if
the payload-carried `isNewUser` flag is set, create the user outright,
otherwise look the user up by phone (creating it as a fallback when
missing) and touch `last_login`; then issue the JWT access token and a
fresh refresh token. -/
def verifyWebhookToken (now : Int) (phoneNumber : Str) (encodedToken : Encoded)
    (freshUserId refreshTokenId refreshPlain : Str) (db : DB) :
    Option AuthResult × DB :=
  let validated := validateAndConsumeToken hashToken now encodedToken phoneNumber db
  let tokenValidation := validated.1
  let db1 := validated.2
  if !tokenValidation.isValid then (none, db1)
  else
    let userAndDb :=
      if tokenValidation.isNewUser == some true then
        createUser now freshUserId phoneNumber none db1
      else
        match findUserByPhone phoneNumber db1 with
        | none => createUser now freshUserId phoneNumber none db1
        | some u => (u, updateLastLogin now u.id db1)
    let user := userAndDb.1
    let db2 := userAndDb.2
    let accessToken := createJWT user.id (15 * 60)
    let refreshCreated := createRefreshToken hashToken now refreshTokenId refreshPlain user.id db2
    (some { accessToken := accessToken, refreshToken := refreshCreated.1.1,
            userId := user.id }, refreshCreated.2)

/-- Result record of `AuthService.refreshAccessToken`. -/
structure TokenPair where
  accessToken : Str
  refreshToken : Str
deriving Repr, DecidableEq

/-- `AuthService.refreshAccessToken`: validate the presented refresh
token, mint a new access token, revoke the presented row and create a
brand-new refresh token (rotation).  Returns `none` on an invalid,
expired or revoked refresh token. -/
def refreshAccessToken (now : Int) (refreshToken userId : Str)
    (newTokenId newPlain : Str) (db : DB) : Option TokenPair × DB :=
  match validateRefreshToken hashToken now refreshToken userId db with
  | none => (none, db)
  | some tokenRecord =>
    let accessToken := createJWT userId (15 * 60)
    let db1 := revokeRefreshToken now tokenRecord.id db
    let refreshCreated := createRefreshToken hashToken now newTokenId newPlain userId db1
    (some { accessToken := accessToken, refreshToken := refreshCreated.1.1 },
     refreshCreated.2)

/-! ### Operation traces over the store

`Op` enumerates the store-mutating operations of the service; `applyOp`
gives their effect on the database, reusing the definitions above.  The
well-formedness condition `WFOps` records what the schema enforces: the
PRIMARY KEY constraint makes every inserted verification-token id fresh. -/

/-- A store operation of the verification service. -/
inductive Op where
  | create (now : Int) (tokenId plainToken phoneNumber : Str) (isNewUser : Bool)
  | consume (now : Int) (encodedToken : Encoded) (phoneNumber : Str)
  | peek (now : Int) (encodedToken : Encoded) (phoneNumber : Str)
  | createRefresh (now : Int) (tokenId plainToken userId : Str)
  | revokeRefresh (now : Int) (tokenId : Str)
  | revokeAll (now : Int) (userId : Str)
  | cleanup (now : Int)

/-- The database effect of one operation. -/
def applyOp (op : Op) (db : DB) : DB :=
  match op with
  | .create now tokenId plainToken phoneNumber isNewUser =>
    (createVerificationToken hashToken now tokenId plainToken phoneNumber isNewUser db).2
  | .consume now encodedToken phoneNumber =>
    (validateAndConsumeToken hashToken now encodedToken phoneNumber db).2
  | .peek now encodedToken phoneNumber =>
    (validateTokenOnly hashToken now encodedToken phoneNumber db).2
  | .createRefresh now tokenId plainToken userId =>
    (createRefreshToken hashToken now tokenId plainToken userId db).2
  | .revokeRefresh now tokenId => revokeRefreshToken now tokenId db
  | .revokeAll now userId => revokeAllUserRefreshTokens now userId db
  | .cleanup now => cleanupExpiredTokens now db

/-- The database after a whole trace of operations. -/
def applyOps (ops : List Op) (db : DB) : DB :=
  ops.foldl (fun d op => applyOp hashToken op d) db

/-- The PRIMARY KEY constraint on `verification_tokens.id`, as a
well-formedness condition on a single operation. -/
def WFOp (op : Op) (db : DB) : Prop :=
  match op with
  | .create _ tokenId _ _ _ =>
    tokenId ∉ db.verification_tokens.map VerificationTokenRow.id
  | _ => True

/-- Well-formedness of a trace: each step satisfies `WFOp` in the state
it runs in. -/
def WFOps : List Op → DB → Prop
  | [], _ => True
  | op :: ops, db => WFOp op db ∧ WFOps ops (applyOp hashToken op db)

/-- `true` iff the operation inserts a verification-token row whose
`token_hash` is `h` (the UNIQUE constraint and the high-entropy secret
generation make this impossible for the hash of a consumed token). -/
def opCreatesHash (op : Op) (h : Str) : Bool :=
  match op with
  | .create _ _ plainToken _ _ => hashToken plainToken == h
  | _ => false

end Services

/-- `true` iff the operation inserts a verification-token row with id `i`
(impossible for a live id by the PRIMARY KEY constraint, and for a
swept-and-reused id by the high-entropy id generator). -/
def opCreatesId (op : Op) (i : Str) : Bool :=
  match op with
  | .create _ tokenId _ _ _ => tokenId == i
  | _ => false

/-- The PRIMARY KEY constraint of `verification_tokens`: ids are pairwise
distinct. -/
def NodupVtIds (db : DB) : Prop :=
  (db.verification_tokens.map VerificationTokenRow.id).Nodup

/-- Every stored verification row carrying `token_hash = h` was spent at
time `t`. -/
def HashUsedAt (h : Str) (t : Int) (db : DB) : Prop :=
  ∀ r ∈ db.verification_tokens, r.token_hash = h → r.used_at = some t

/-- Every stored verification row with id `i` has `used_at = some t`. -/
def UsedAtSet (i : Str) (t : Int) (db : DB) : Prop :=
  ∀ r ∈ db.verification_tokens, r.id = i → r.used_at = some t

/-! ### Session relay (`AuthSessionDO`) -/

/-- The `readyState` of a browser/worker WebSocket. -/
inductive WsReadyState where
  | connecting
  | opened
  | closing
  | closed
deriving Repr, DecidableEq

/-- One server-side WebSocket held by the Durable Object.  `chanId`
models JS object identity; `sendFails` models `ws.send` throwing. -/
structure Channel where
  chanId : Nat
  readyState : WsReadyState
  sendFails : Bool
deriving Repr, DecidableEq

/-- The `auth_success` event pushed to clients. -/
structure AuthMessage where
  event : Str
  authToken : Str
  refreshToken : Str
  userId : Str
deriving Repr, DecidableEq

/-- The message built by `sendTokensToClient`. -/
def authSuccessMessage (authToken refreshToken userId : Str) : AuthMessage :=
  { event := "auth_success".data, authToken := authToken,
    refreshToken := refreshToken, userId := userId }

/-- The in-memory state of one `AuthSessionDO` instance: its `sessions`
array. -/
structure RelayState where
  sessions : List Channel
deriving Repr, DecidableEq

/-- The `/websocket` branch of `AuthSessionDO.fetch`: accept the server
socket and push it onto `sessions`. -/
def attachWebSocket (server : Channel) (st : RelayState) : RelayState :=
  { sessions := st.sessions ++ [server] }

/-- One iteration of the `forEach` loop in `sendTokensToClient`: an open
socket whose `send` succeeds receives the message; a non-open socket, or
one whose `send` throws, is filtered out of `sessions` instead. -/
def sendStep (msg : AuthMessage) (acc : List Channel × List (Nat × AuthMessage))
    (ws : Channel) : List Channel × List (Nat × AuthMessage) :=
  if ws.readyState == WsReadyState.opened then
    if ws.sendFails then (acc.1.filter (fun s => s.chanId != ws.chanId), acc.2)
    else (acc.1, acc.2 ++ [(ws.chanId, msg)])
  else (acc.1.filter (fun s => s.chanId != ws.chanId), acc.2)

/-- `AuthSessionDO.sendTokensToClient`: iterate over the `sessions` array
as captured at call time (JS `forEach` iterates the original array even
though the field is reassigned), deliver to open sockets, prune the
rest.  Returns the new relay state and the list of performed sends. -/
def sendTokensToClient (authToken refreshToken userId : Str) (st : RelayState) :
    RelayState × List (Nat × AuthMessage) :=
  let message := authSuccessMessage authToken refreshToken userId
  let result := st.sessions.foldl (sendStep message) (st.sessions, [])
  ({ sessions := result.1 }, result.2)

/-- A channel that `sendTokensToClient` can actually deliver to: open and
whose `send` does not throw. -/
def goodChannel (c : Channel) : Bool :=
  c.readyState == WsReadyState.opened && !c.sendFails

/-! ## Phone-normalization lemmas -/

theorem mem_stripNonDigits_isDigit {s : Str} {c : Char} (hc : c ∈ stripNonDigits s) :
    c.isDigit := (List.mem_filter.mp hc).2

theorem stripNonDigits_of_digits {s : Str} (h : ∀ c ∈ s, c.isDigit) :
    stripNonDigits s = s := List.filter_eq_self.mpr h

theorem jsStartsWith_plus_of_digits {s : Str} (h : ∀ c ∈ s, c.isDigit) :
    jsStartsWith ['+'] s = false := by
  cases s with
  | nil => rfl
  | cons c cs =>
    have hc : c.isDigit := h c (by simp)
    have hne : ('+' == c) = false := by
      cases hbe : ('+' == c) with
      | false => rfl
      | true =>
        have := eq_of_beq hbe
        exact absurd hc (by rw [← this]; decide)
    simp [jsStartsWith, List.isPrefixOf, hne]

/-- Every result of `normalizePhoneNumber` is a plus sign followed by a
digit string on which the 521-collapse guard is no longer met. -/
theorem normalizePhoneNumber_shape (x : Str) :
    ∃ nd : Str, normalizePhoneNumber x = '+' :: nd ∧ (∀ c ∈ nd, c.isDigit) ∧
      (jsStartsWith ['5', '2', '1'] nd && nd.length == 13) = false := by
  unfold normalizePhoneNumber
  have hdig : ∀ c ∈ stripNonDigits x, c.isDigit := fun c hc => mem_stripNonDigits_isDigit hc
  by_cases hcond :
      (jsStartsWith ['5', '2', '1'] (stripNonDigits x)
        && (stripNonDigits x).length == 13) = true
  · obtain ⟨hpre, hlen⟩ := Bool.and_eq_true_iff.mp hcond
    have hlen13 : (stripNonDigits x).length = 13 := by
      have := eq_of_beq hlen
      simpa using this
    have hdig2 : ∀ c ∈ (stripNonDigits x).take 2 ++ (stripNonDigits x).drop 3, c.isDigit := by
      intro c hc
      rcases List.mem_append.mp hc with h | h
      · exact hdig c (List.take_subset _ _ h)
      · exact hdig c (List.drop_subset _ _ h)
    refine ⟨(stripNonDigits x).take 2 ++ (stripNonDigits x).drop 3, ?_, hdig2, ?_⟩
    · simp [hcond, jsStartsWith_plus_of_digits hdig2]
    · have hl : ((stripNonDigits x).take 2 ++ (stripNonDigits x).drop 3).length = 12 := by
        simp [hlen13]
      simp [hl]
  · have hcond' :
        (jsStartsWith ['5', '2', '1'] (stripNonDigits x)
          && (stripNonDigits x).length == 13) = false := by
      simpa using hcond
    refine ⟨stripNonDigits x, ?_, hdig, hcond'⟩
    simp [hcond', jsStartsWith_plus_of_digits hdig]

theorem normalizePhoneNumber_plus_digits (nd : Str) (hdig : ∀ c ∈ nd, c.isDigit)
    (hcond : (jsStartsWith ['5', '2', '1'] nd && nd.length == 13) = false) :
    normalizePhoneNumber ('+' :: nd) = '+' :: nd := by
  unfold normalizePhoneNumber
  have hstrip : stripNonDigits ('+' :: nd) = nd := by
    unfold stripNonDigits
    rw [List.filter_cons_of_neg (by decide)]
    exact stripNonDigits_of_digits hdig
  rw [hstrip]
  simp [hcond, jsStartsWith_plus_of_digits hdig]

/-- C9: `normalizePhoneNumber` is idempotent, and a Mexican mobile number
written with the extra `1` after the country code (`521` + 10 digits)
normalizes to the same string as the form without it (`52` + 10 digits). -/
theorem normalizePhoneNumber_idempotent_and_collapse :
    (∀ x : Str, normalizePhoneNumber (normalizePhoneNumber x) = normalizePhoneNumber x) ∧
    (∀ rest : Str, (∀ c ∈ rest, c.isDigit) → rest.length = 10 →
      normalizePhoneNumber ('5' :: '2' :: '1' :: rest)
        = normalizePhoneNumber ('5' :: '2' :: rest)) := by
  constructor
  · intro x
    obtain ⟨nd, hx, hdig, hcond⟩ := normalizePhoneNumber_shape x
    rw [hx, normalizePhoneNumber_plus_digits nd hdig hcond]
  · intro rest hdig hlen
    have hdigL : ∀ c ∈ ('5' :: '2' :: '1' :: rest), c.isDigit := by
      intro c hc
      simp only [List.mem_cons] at hc
      rcases hc with rfl | rfl | rfl | hc
      · decide
      · decide
      · decide
      · exact hdig c hc
    have hdigR : ∀ c ∈ ('5' :: '2' :: rest), c.isDigit := by
      intro c hc
      simp only [List.mem_cons] at hc
      rcases hc with rfl | rfl | hc
      · decide
      · decide
      · exact hdig c hc
    unfold normalizePhoneNumber
    rw [stripNonDigits_of_digits hdigL, stripNonDigits_of_digits hdigR]
    have hpre : jsStartsWith ['5', '2', '1'] ('5' :: '2' :: '1' :: rest) = true := by
      simp [jsStartsWith, List.isPrefixOf]
    have hlenL : ('5' :: '2' :: '1' :: rest).length = 13 := by simp [hlen]
    have hlenR : ¬ (('5' :: '2' :: rest).length == 13) = true := by simp [hlen]
    have hcondR :
        (jsStartsWith ['5', '2', '1'] ('5' :: '2' :: rest)
          && ('5' :: '2' :: rest).length == 13) = false := by
      cases hb : jsStartsWith ['5', '2', '1'] ('5' :: '2' :: rest) <;>
        simp [hb, hlen]
    have hdigRest2 : ∀ c ∈ ('5' :: '2' :: rest), c.isDigit := hdigR
    simp only [hpre, hlenL, hcondR, Bool.true_and, if_false]
    simp [jsStartsWith_plus_of_digits hdigR]

/-- C9 witness: idempotence on a formatted Mexican number and the concrete
collapse equality. -/
theorem normalizePhoneNumber_idempotent_and_collapse_witness :
    normalizePhoneNumber (normalizePhoneNumber "+52 55 1234 5678".data)
      = normalizePhoneNumber "+52 55 1234 5678".data ∧
    normalizePhoneNumber ('5' :: '2' :: '1' :: "5512345678".data)
      = normalizePhoneNumber ('5' :: '2' :: "5512345678".data) :=
  ⟨normalizePhoneNumber_idempotent_and_collapse.1 _,
   normalizePhoneNumber_idempotent_and_collapse.2 "5512345678".data (by decide) (by decide)⟩

/-- The superseded unguarded variant is not idempotent (evolutionary noise
kept in the source): `5211234` collapses to `521234`, which collapses
again. -/
theorem normalizePhoneNumberUnguarded_not_idempotent :
    normalizePhoneNumberUnguarded (normalizePhoneNumberUnguarded "5211234".data)
      ≠ normalizePhoneNumberUnguarded "5211234".data := by decide

/-! ## initiateLogin: phone canonicalization and notifier discrimination -/

/-- C6 counterexample: `initiateLogin` canonicalizes the phone number with
`AuthService.formatPhoneNumber`, which does NOT collapse the mobile-prefix:
for the 13-digit Mexican mobile input `5215512345678` the notifier
recipient differs from the one for its 12-digit counterpart
`525512345678`, and from the collapsed form `normalizePhoneNumber`
produces. -/
theorem initiateLogin_no_collapse_counterexample :
    ((initiateLogin (fun s => 'h' :: s) 1000 "5215512345678".data "tid".data
        "sec".data true ⟨[], [], []⟩).2.2).map SentMessage.recipient
      ≠ ((initiateLogin (fun s => 'h' :: s) 1000 "525512345678".data "tid".data
        "sec".data true ⟨[], [], []⟩).2.2).map SentMessage.recipient ∧
    formatPhoneNumber "5215512345678".data ≠ normalizePhoneNumber "5215512345678".data := by
  constructor
  · decide
  · decide

/-- C6 (amended): the canonical phone form used by `initiateLogin` — for
the user lookup, the stored token row and the notifier recipient — is
`formatPhoneNumber`, which strips non-digits and prepends `+` but performs
no mobile-prefix collapse (that collapse exists only in
`normalizePhoneNumber`, applied to webhook sender ids). -/
theorem initiateLogin_canonical_phone (hashToken : Str → Str) (now : Int)
    (phone tokenId plainToken : Str) (notifierOk : Bool) (db : DB) :
    formatPhoneNumber phone = '+' :: stripNonDigits phone ∧
    (initiateLogin hashToken now phone tokenId plainToken notifierOk db).2.1.verification_tokens
      = db.verification_tokens
        ++ [{ id := tokenId, token_hash := hashToken plainToken,
              phone_number := '+' :: stripNonDigits phone,
              expires_at := now + 10 * 60, used_at := none, created_at := now }] ∧
    ((initiateLogin hashToken now phone tokenId plainToken notifierOk db).2.2).map
        SentMessage.recipient = ['+' :: stripNonDigits phone] ∧
    findUserByPhone (formatPhoneNumber phone) db
      = findUserByPhone ('+' :: stripNonDigits phone) db := by
  have hfmt : formatPhoneNumber phone = '+' :: stripNonDigits phone := by
    unfold formatPhoneNumber
    simp [jsStartsWith_plus_of_digits (fun c hc => mem_stripNonDigits_isDigit hc)]
  refine ⟨hfmt, ?_, ?_, by rw [hfmt]⟩
  · cases notifierOk <;>
      simp [initiateLogin, createVerificationToken, hfmt]
  · cases notifierOk <;>
      simp [initiateLogin, createVerificationToken, hfmt]

/-- C7: `initiateLogin`'s result discriminates exactly on the notifier
outcome: on notifier success it returns `{success:true, sessionId}` with
the attempt's token id as session identifier; on notifier failure it
returns `{success:false}` with a fixed error string — a constant record
carrying no token, secret or other credential material. -/
theorem initiateLogin_notifier_discrimination (hashToken : Str → Str) (now : Int)
    (phone tokenId plainToken : Str) (db : DB) :
    (initiateLogin hashToken now phone tokenId plainToken true db).1
      = { success := true, sessionId := some tokenId, error := none } ∧
    (initiateLogin hashToken now phone tokenId plainToken false db).1
      = { success := false, sessionId := none,
          error := some "Failed to send WhatsApp message".data } := by
  constructor <;> rfl

/-! ## Token decode and consume basics -/

/-- C4: a payload carrying `expiresAt ≤ now` is rejected by
`decodeTokenPayload` and by `validateAndConsumeToken`, which leaves the
store untouched — regardless of the other fields and of any stored row. -/
theorem expired_payload_rejected (hashToken : Str → Str) (now : Int)
    (q : RawPayload) (phone : Str) (db : DB) (v : Int)
    (hv : q.expiresAt = some v) (hle : v ≤ now) :
    decodeTokenPayload now (Encoded.payload q) = none ∧
    validateAndConsumeToken hashToken now (Encoded.payload q) phone db
      = ({ isValid := false, isNewUser := none }, db) := by
  have hdec : decodeTokenPayload now (Encoded.payload q) = none := by
    unfold decodeTokenPayload
    rcases q with ⟨tk, inu, ph, ts, ex⟩
    simp only at hv
    subst hv
    cases tk with
    | none => rfl
    | some tk =>
    cases inu with
    | none => rfl
    | some inu =>
    cases ph with
    | none => rfl
    | some ph =>
    cases ts with
    | none => rfl
    | some ts =>
    dsimp only
    by_cases h0 : (tk.isEmpty || ph.isEmpty || (ts == 0) || (v == 0)) = true
    · rw [if_pos h0]
    · rw [if_neg h0, if_pos hle]
  exact ⟨hdec, by simp [validateAndConsumeToken, hdec]⟩

/-- C4 witness: a well-formed payload whose `expiresAt = 10` is rejected
at `now = 20` even though a matching unused row is stored. -/
theorem expired_payload_rejected_witness :
    decodeTokenPayload 20
        (Encoded.payload ⟨some "sec".data, some true, some "p".data,
          some 5, some 10, some "A".data⟩) = none ∧
    validateAndConsumeToken (fun s => 'h' :: s) 20
        (Encoded.payload ⟨some "sec".data, some true, some "p".data,
          some 5, some 10, some "A".data⟩) "p".data
        ⟨[], [⟨"A".data, 'h' :: "sec".data, "p".data, 10, none, 5⟩], []⟩
      = ({ isValid := false, isNewUser := none },
         ⟨[], [⟨"A".data, 'h' :: "sec".data, "p".data, 10, none, 5⟩], []⟩) :=
  expired_payload_rejected (fun s => 'h' :: s) 20 _ "p".data _ 10 rfl (by decide)

/-- A successful `validateAndConsumeToken` call decomposes into: a decoded
payload whose phone matches, a stored row found by `consumeMatch`, and the
`used_at := now` update of that row's id. -/
theorem consume_success_shape (hashToken : Str → Str) (now : Int) (e : Encoded)
    (phone : Str) (db : DB)
    (h : (validateAndConsumeToken hashToken now e phone db).1.isValid = true) :
    ∃ payload tokenRecord,
      decodeTokenPayload now e = some payload ∧ payload.phoneNumber = phone ∧
      db.verification_tokens.find? (consumeMatch (hashToken payload.token) phone now)
        = some tokenRecord ∧
      validateAndConsumeToken hashToken now e phone db
        = ({ isValid := true, isNewUser := some payload.isNewUser },
           { db with verification_tokens := db.verification_tokens.map (fun r =>
               if r.id == tokenRecord.id then { r with used_at := some now } else r) }) := by
  unfold validateAndConsumeToken at h ⊢
  cases hdec : decodeTokenPayload now e with
  | none => rw [hdec] at h; simp at h
  | some payload =>
    rw [hdec] at h
    dsimp only at h ⊢
    by_cases hph : payload.phoneNumber = phone
    · rw [if_neg (not_not_intro hph)] at h ⊢
      cases hfind : db.verification_tokens.find?
          (consumeMatch (hashToken payload.token) phone now) with
      | none => rw [hfind] at h; simp at h
      | some tokenRecord =>
        exact ⟨payload, tokenRecord, rfl, hph, hfind, rfl⟩
    · rw [if_pos hph] at h
      simp at h

/-- A failing (or short-circuiting) `validateAndConsumeToken` call leaves
the database unchanged; a succeeding one performs exactly the
`used_at := now` update on the found (unused) row's id. -/
theorem consume_db_cases (hashToken : Str → Str) (now : Int) (e : Encoded)
    (phone : Str) (db : DB) :
    (validateAndConsumeToken hashToken now e phone db).2 = db ∨
    ∃ tokenRecord, tokenRecord ∈ db.verification_tokens ∧
      tokenRecord.used_at = none ∧
      (validateAndConsumeToken hashToken now e phone db).2
        = { db with verification_tokens := db.verification_tokens.map (fun r =>
            if r.id == tokenRecord.id then { r with used_at := some now } else r) } := by
  unfold validateAndConsumeToken
  cases hdec : decodeTokenPayload now e with
  | none => exact Or.inl rfl
  | some payload =>
    dsimp only
    by_cases hph : payload.phoneNumber ≠ phone
    · rw [if_pos hph]; exact Or.inl rfl
    · rw [if_neg hph]
      cases hfind : db.verification_tokens.find?
          (consumeMatch (hashToken payload.token) phone now) with
      | none => exact Or.inl rfl
      | some tokenRecord =>
        refine Or.inr ⟨tokenRecord, List.mem_of_find?_eq_some hfind, ?_, rfl⟩
        have hp := List.find?_some hfind
        unfold consumeMatch at hp
        simp only [Bool.and_eq_true, beq_iff_eq] at hp
        exact hp.2

/-- `validateTokenOnly` never modifies the store. -/
theorem validateTokenOnly_db_eq (hashToken : Str → Str) (now : Int) (e : Encoded)
    (phone : Str) (db : DB) :
    (validateTokenOnly hashToken now e phone db).2 = db := by
  unfold validateTokenOnly
  cases decodeTokenPayload now e with
  | none => rfl
  | some payload =>
    dsimp only
    by_cases hph : payload.phoneNumber ≠ phone
    · rw [if_pos hph]
    · rw [if_neg hph]

/-! ## C3: peek versus consume -/

theorem find?_congr_mem {α : Type} (p q : α → Bool) (l : List α)
    (h : ∀ a ∈ l, p a = q a) : l.find? p = l.find? q := by
  induction l with
  | nil => rfl
  | cons a l ih =>
    have ha := h a (by simp)
    simp only [List.find?]
    rw [ha]
    cases q a with
    | true => rfl
    | false => exact ih (fun b hb => h b (List.mem_cons_of_mem a hb))

theorem consumeMatch_imp_peekMatch {tokenHash phone : Str} {now : Int}
    {r : VerificationTokenRow} (h : consumeMatch tokenHash phone now r = true) :
    peekMatch tokenHash phone now r = true := by
  unfold consumeMatch at h
  unfold peekMatch
  simp only [Bool.and_eq_true] at h ⊢
  exact h.1

/-- C3 counterexample: on a store whose only matching row is already spent
(`used_at = some 5`), `validateTokenOnly` still reports valid (its SELECT
omits `used_at IS NULL`) while `validateAndConsumeToken` reports invalid —
so peek is not the same lookup as consume. -/
theorem validateTokenOnly_spent_token_counterexample :
    (validateTokenOnly (fun s => 'h' :: s) 50
        (Encoded.payload ⟨some "sec".data, some false, some "p".data,
          some 1, some 100, some "A".data⟩) "p".data
        ⟨[], [⟨"A".data, 'h' :: "sec".data, "p".data, 100, some 5, 1⟩], []⟩).1.isValid
      = true ∧
    (validateAndConsumeToken (fun s => 'h' :: s) 50
        (Encoded.payload ⟨some "sec".data, some false, some "p".data,
          some 1, some 100, some "A".data⟩) "p".data
        ⟨[], [⟨"A".data, 'h' :: "sec".data, "p".data, 100, some 5, 1⟩], []⟩).1.isValid
      = false := by
  constructor
  · decide
  · decide

/-- C3 (amended): `validateTokenOnly` never modifies the store, and its
lookup is `validateAndConsumeToken`'s minus the `used_at IS NULL`
condition: a successful consume always implies a successful peek, and the
two agree exactly whenever every row passing the shared hash/phone/expiry
filter is still unused. -/
theorem validateTokenOnly_refines_consume (hashToken : Str → Str) (now : Int)
    (e : Encoded) (phone : Str) (db : DB) :
    (validateTokenOnly hashToken now e phone db).2 = db ∧
    ((validateAndConsumeToken hashToken now e phone db).1.isValid = true →
      (validateTokenOnly hashToken now e phone db).1.isValid = true) ∧
    (∀ payload, decodeTokenPayload now e = some payload →
      (∀ r ∈ db.verification_tokens,
        peekMatch (hashToken payload.token) phone now r = true → r.used_at = none) →
      (validateTokenOnly hashToken now e phone db).1.isValid
        = (validateAndConsumeToken hashToken now e phone db).1.isValid) := by
  refine ⟨validateTokenOnly_db_eq hashToken now e phone db, ?_, ?_⟩
  · intro h
    obtain ⟨payload, tokenRecord, hdec, hph, hfind, -⟩ :=
      consume_success_shape hashToken now e phone db h
    have hpeek : db.verification_tokens.find?
        (peekMatch (hashToken payload.token) phone now) ≠ none := by
      intro hnone
      have := List.find?_eq_none.mp hnone tokenRecord (List.mem_of_find?_eq_some hfind)
      exact this (consumeMatch_imp_peekMatch (List.find?_some hfind))
    unfold validateTokenOnly
    rw [hdec]
    dsimp only
    rw [if_neg (not_not_intro hph)]
    dsimp only
    cases hfp : db.verification_tokens.find?
        (peekMatch (hashToken payload.token) phone now) with
    | none => exact absurd hfp hpeek
    | some r => rfl
  · intro payload hdec hunused
    have hagree : ∀ r ∈ db.verification_tokens,
        peekMatch (hashToken payload.token) phone now r
          = consumeMatch (hashToken payload.token) phone now r := by
      intro r hr
      unfold consumeMatch peekMatch
      cases hp : (r.token_hash == hashToken payload.token
          && r.phone_number == phone && decide (now < r.expires_at)) with
      | false => simp [hp]
      | true =>
        have hu : r.used_at = none := hunused r hr (by unfold peekMatch; exact hp)
        simp [hp, hu]
    have hsame : db.verification_tokens.find?
          (peekMatch (hashToken payload.token) phone now)
        = db.verification_tokens.find?
          (consumeMatch (hashToken payload.token) phone now) :=
      find?_congr_mem _ _ _ hagree
    unfold validateTokenOnly validateAndConsumeToken
    rw [hdec]
    dsimp only
    by_cases hph : payload.phoneNumber ≠ phone
    · rw [if_pos hph, if_pos hph]
    · rw [if_neg hph, if_neg hph]
      dsimp only
      rw [hsame]
      cases db.verification_tokens.find?
          (consumeMatch (hashToken payload.token) phone now) with
      | none => rfl
      | some r => rfl

/-- C3 witness for the amended statement: on a store holding one unused
matching row, peek leaves the store unchanged, consume succeeds, and peek
and consume agree. -/
theorem validateTokenOnly_refines_consume_witness :
    (validateTokenOnly (fun s => 'h' :: s) 50
        (Encoded.payload ⟨some "sec".data, some false, some "p".data,
          some 1, some 100, some "A".data⟩) "p".data
        ⟨[], [⟨"A".data, 'h' :: "sec".data, "p".data, 100, none, 1⟩], []⟩).2
      = ⟨[], [⟨"A".data, 'h' :: "sec".data, "p".data, 100, none, 1⟩], []⟩ ∧
    ((validateAndConsumeToken (fun s => 'h' :: s) 50
        (Encoded.payload ⟨some "sec".data, some false, some "p".data,
          some 1, some 100, some "A".data⟩) "p".data
        ⟨[], [⟨"A".data, 'h' :: "sec".data, "p".data, 100, none, 1⟩], []⟩).1.isValid = true →
      (validateTokenOnly (fun s => 'h' :: s) 50
        (Encoded.payload ⟨some "sec".data, some false, some "p".data,
          some 1, some 100, some "A".data⟩) "p".data
        ⟨[], [⟨"A".data, 'h' :: "sec".data, "p".data, 100, none, 1⟩], []⟩).1.isValid = true) ∧
    (validateTokenOnly (fun s => 'h' :: s) 50
        (Encoded.payload ⟨some "sec".data, some false, some "p".data,
          some 1, some 100, some "A".data⟩) "p".data
        ⟨[], [⟨"A".data, 'h' :: "sec".data, "p".data, 100, none, 1⟩], []⟩).1.isValid
      = (validateAndConsumeToken (fun s => 'h' :: s) 50
        (Encoded.payload ⟨some "sec".data, some false, some "p".data,
          some 1, some 100, some "A".data⟩) "p".data
        ⟨[], [⟨"A".data, 'h' :: "sec".data, "p".data, 100, none, 1⟩], []⟩).1.isValid := by
  have h := validateTokenOnly_refines_consume (fun s => 'h' :: s) 50
      (Encoded.payload ⟨some "sec".data, some false, some "p".data,
        some 1, some 100, some "A".data⟩) "p".data
      ⟨[], [⟨"A".data, 'h' :: "sec".data, "p".data, 100, none, 1⟩], []⟩
  exact ⟨h.1, h.2.1,
    h.2.2 ⟨"sec".data, false, "p".data, 1, 100, some "A".data⟩ (by decide) (by decide)⟩

/-! ## C5: the isNewUser flag comes from the client-supplied payload -/

theorem verifyWebhookToken_userId_new (hashToken : Str → Str)
    (createJWT : Str → Int → Str) (now : Int) (phone : Str) (e : Encoded)
    (freshUserId refreshTokenId refreshPlain : Str) (db db1 : DB)
    (heq : validateAndConsumeToken hashToken now e phone db
      = ({ isValid := true, isNewUser := some true }, db1)) :
    ((verifyWebhookToken hashToken createJWT now phone e freshUserId
        refreshTokenId refreshPlain db).1).map AuthResult.userId
      = some freshUserId := by
  unfold verifyWebhookToken
  rw [heq]
  rfl

theorem verifyWebhookToken_userId_existing (hashToken : Str → Str)
    (createJWT : Str → Int → Str) (now : Int) (phone : Str) (e : Encoded)
    (freshUserId refreshTokenId refreshPlain : Str) (db db1 : DB) (u : UserRow)
    (heq : validateAndConsumeToken hashToken now e phone db
      = ({ isValid := true, isNewUser := some false }, db1))
    (hu : findUserByPhone phone db1 = some u) :
    ((verifyWebhookToken hashToken createJWT now phone e freshUserId
        refreshTokenId refreshPlain db).1).map AuthResult.userId
      = some u.id := by
  unfold verifyWebhookToken
  rw [heq]
  simp [hu]

/-- C5: on a successful consume, the returned `isNewUser` flag is exactly
the one carried in the decoded (client-supplied) payload, and
`verifyWebhookToken` branches on it alone: with the flag set it calls
`createUser` and returns the fresh user id even if a user with that phone
already exists; with the flag clear it returns the id of the user found by
phone (touching `last_login`). -/
theorem consume_isNewUser_from_payload (hashToken : Str → Str)
    (createJWT : Str → Int → Str) (now : Int) (e : Encoded) (phone : Str)
    (db : DB) (payload : TokenPayload)
    (freshUserId refreshTokenId refreshPlain : Str)
    (hdec : decodeTokenPayload now e = some payload)
    (hsucc : (validateAndConsumeToken hashToken now e phone db).1.isValid = true) :
    (validateAndConsumeToken hashToken now e phone db).1.isNewUser
      = some payload.isNewUser ∧
    (payload.isNewUser = true →
      ((verifyWebhookToken hashToken createJWT now phone e freshUserId
          refreshTokenId refreshPlain db).1).map AuthResult.userId
        = some freshUserId) ∧
    (payload.isNewUser = false →
      ∀ u, findUserByPhone phone (validateAndConsumeToken hashToken now e phone db).2
          = some u →
        ((verifyWebhookToken hashToken createJWT now phone e freshUserId
            refreshTokenId refreshPlain db).1).map AuthResult.userId
          = some u.id) := by
  obtain ⟨payload', tokenRecord, hdec', hph, hfind, heq⟩ :=
    consume_success_shape hashToken now e phone db hsucc
  have hpp : payload' = payload := by
    rw [hdec] at hdec'
    exact (Option.some.injEq _ _).mp hdec'.symm
  subst hpp
  refine ⟨by rw [heq], ?_, ?_⟩
  · intro hnew
    rw [hnew] at heq
    exact verifyWebhookToken_userId_new hashToken createJWT now phone e
      freshUserId refreshTokenId refreshPlain db _ heq
  · intro hold u hu
    rw [hold] at heq
    rw [heq] at hu
    dsimp only at hu
    exact verifyWebhookToken_userId_existing hashToken createJWT now phone e
      freshUserId refreshTokenId refreshPlain db _ u heq hu

/-- C5 witness: a payload claiming `isNewUser = true` for a phone that
already has a user row still routes to `createUser` and returns the fresh
id, not the stored user's id. -/
theorem consume_isNewUser_from_payload_witness :
    (validateAndConsumeToken (fun s => 'h' :: s) 50
        (Encoded.payload ⟨some "sec".data, some true, some "p".data,
          some 1, some 100, some "A".data⟩) "p".data
        ⟨[⟨"U0".data, "p".data, none, 1, 1⟩],
         [⟨"A".data, 'h' :: "sec".data, "p".data, 100, none, 1⟩], []⟩).1.isNewUser
      = some true ∧
    ((verifyWebhookToken (fun s => 'h' :: s) (fun u _ => 'j' :: u) 50 "p".data
        (Encoded.payload ⟨some "sec".data, some true, some "p".data,
          some 1, some 100, some "A".data⟩) "U1".data "R1".data "rp".data
        ⟨[⟨"U0".data, "p".data, none, 1, 1⟩],
         [⟨"A".data, 'h' :: "sec".data, "p".data, 100, none, 1⟩], []⟩).1).map
        AuthResult.userId = some "U1".data := by
  have h := consume_isNewUser_from_payload (fun s => 'h' :: s) (fun u _ => 'j' :: u)
      50 (Encoded.payload ⟨some "sec".data, some true, some "p".data,
        some 1, some 100, some "A".data⟩) "p".data
      ⟨[⟨"U0".data, "p".data, none, 1, 1⟩],
       [⟨"A".data, 'h' :: "sec".data, "p".data, 100, none, 1⟩], []⟩
      ⟨"sec".data, true, "p".data, 1, 100, some "A".data⟩
      "U1".data "R1".data "rp".data (by decide) (by decide)
  exact ⟨h.1, h.2.1 rfl⟩

/-! ## C8: session relay fan-out -/

theorem countP_eq_one_of_nodup_mem {α : Type} [DecidableEq α] {l : List α}
    (h : l.Nodup) {a : α} (ha : a ∈ l) :
    l.countP (fun x => decide (x = a)) = 1 := by
  induction l with
  | nil => simp at ha
  | cons b l ih =>
    obtain ⟨hb, hl⟩ := List.nodup_cons.mp h
    rw [List.countP_cons]
    rcases List.mem_cons.mp ha with rfl | ha'
    · have hz : l.countP (fun x => decide (x = a)) = 0 :=
        List.countP_eq_zero.mpr (fun x hx => by
          simp only [decide_eq_true_eq]
          exact fun hxa => hb (hxa ▸ hx))
      simp [hz]
    · have hba : ¬(b = a) := fun hbe => hb (hbe ▸ ha')
      simp [ih hl ha', hba]

theorem foldl_sendStep_sent (msg : AuthMessage) (l : List Channel)
    (acc : List Channel × List (Nat × AuthMessage)) :
    (l.foldl (sendStep msg) acc).2
      = acc.2 ++ (l.filter goodChannel).map (fun c => (c.chanId, msg)) := by
  induction l generalizing acc with
  | nil => simp
  | cons ws l ih =>
    rw [List.foldl_cons, ih]
    unfold sendStep goodChannel
    by_cases h1 : (ws.readyState == WsReadyState.opened) = true
    · by_cases h2 : ws.sendFails = true
      · simp [h1, h2, goodChannel]
      · simp [h1, h2, goodChannel]
    · simp [h1, goodChannel]

theorem foldl_sendStep_sessions (msg : AuthMessage) (l : List Channel)
    (acc : List Channel × List (Nat × AuthMessage)) :
    (l.foldl (sendStep msg) acc).1
      = acc.1.filter (fun s => l.all (fun ws => goodChannel ws || s.chanId != ws.chanId)) := by
  induction l generalizing acc with
  | nil => simp
  | cons ws l ih =>
    rw [List.foldl_cons, ih]
    by_cases hg : goodChannel ws = true
    · have hstep : (sendStep msg acc ws).1 = acc.1 := by
        unfold goodChannel at hg
        obtain ⟨h1, h2⟩ := Bool.and_eq_true_iff.mp hg
        unfold sendStep
        rw [if_pos h1, if_neg (by simp at h2; simp [h2])]
      rw [hstep]
      apply List.filter_congr
      intro s hs
      simp [hg]
    · have hstep : (sendStep msg acc ws).1
          = acc.1.filter (fun s => s.chanId != ws.chanId) := by
        unfold goodChannel at hg
        unfold sendStep
        by_cases h1 : (ws.readyState == WsReadyState.opened) = true
        · have h2 : ws.sendFails = true := by
            cases h : ws.sendFails with
            | true => rfl
            | false => rw [h1, h] at hg; simp at hg
          rw [if_pos h1, if_pos h2]
        · rw [if_neg h1]
      rw [hstep, List.filter_filter]
      apply List.filter_congr
      intro s hs
      simp [hg, Bool.and_comm]

/-- C8: one `sendTokensToClient` call pushes exactly one `auth_success`
event with the credential triple to every attached open channel, prunes
every channel found closed or erroring from `sessions`, is a no-op without
error on zero channels, and a channel attached afterwards has received
nothing (there is no replay). -/
theorem sendTokensToClient_fanout (authToken refreshToken userId : Str)
    (st : RelayState)
    (hnodup : (st.sessions.map Channel.chanId).Nodup) :
    (sendTokensToClient authToken refreshToken userId st).2
      = (st.sessions.filter goodChannel).map
          (fun c => (c.chanId, authSuccessMessage authToken refreshToken userId)) ∧
    (sendTokensToClient authToken refreshToken userId st).1.sessions
      = st.sessions.filter goodChannel ∧
    (∀ c ∈ st.sessions, c.readyState = WsReadyState.opened → c.sendFails = false →
      (sendTokensToClient authToken refreshToken userId st).2.countP
          (fun ev => decide (ev
            = (c.chanId, authSuccessMessage authToken refreshToken userId))) = 1) ∧
    (st.sessions = [] →
      sendTokensToClient authToken refreshToken userId st = ({ sessions := [] }, [])) ∧
    (∀ cnew : Channel, cnew.chanId ∉ st.sessions.map Channel.chanId →
      (attachWebSocket cnew
          (sendTokensToClient authToken refreshToken userId st).1).sessions
        = (sendTokensToClient authToken refreshToken userId st).1.sessions ++ [cnew] ∧
      (sendTokensToClient authToken refreshToken userId st).2.countP
          (fun ev => ev.1 == cnew.chanId) = 0) := by
  have hsent : (sendTokensToClient authToken refreshToken userId st).2
      = (st.sessions.filter goodChannel).map
          (fun c => (c.chanId, authSuccessMessage authToken refreshToken userId)) := by
    unfold sendTokensToClient
    rw [foldl_sendStep_sent]
    simp
  have hsess : (sendTokensToClient authToken refreshToken userId st).1.sessions
      = st.sessions.filter goodChannel := by
    unfold sendTokensToClient
    dsimp only
    rw [foldl_sendStep_sessions]
    apply List.filter_congr
    intro s hs
    have hs' : s ∈ st.sessions := hs
    cases hgs : goodChannel s with
    | true =>
      rw [List.all_eq_true]
      intro ws hws
      by_cases hgw : goodChannel ws = true
      · simp [hgw]
      · have hne : s ≠ ws := fun h => hgw (h ▸ hgs)
        have : s.chanId ≠ ws.chanId := fun h =>
          hne (List.inj_on_of_nodup_map hnodup hs' hws h)
        simp [this]
    | false =>
      have hps : (goodChannel s || s.chanId != s.chanId) = false := by
        simp [hgs]
      cases hall : st.sessions.all (fun ws => goodChannel ws || s.chanId != ws.chanId) with
      | false => rfl
      | true =>
        have := List.all_eq_true.mp hall s hs'
        rw [hps] at this
        exact absurd this (by simp)
  refine ⟨hsent, hsess, ?_, ?_, ?_⟩
  · intro c hc hopen hfail
    have hgood : goodChannel c = true := by
      unfold goodChannel
      rw [hopen, hfail]
      rfl
    rw [hsent]
    have hmem : (c.chanId, authSuccessMessage authToken refreshToken userId)
        ∈ (st.sessions.filter goodChannel).map
            (fun c => (c.chanId, authSuccessMessage authToken refreshToken userId)) :=
      List.mem_map_of_mem _ (List.mem_filter.mpr ⟨hc, hgood⟩)
    have hnd : ((st.sessions.filter goodChannel).map
        (fun c => (c.chanId, authSuccessMessage authToken refreshToken userId))).Nodup := by
      have hsub : List.Sublist ((st.sessions.filter goodChannel).map Channel.chanId)
          (st.sessions.map Channel.chanId) :=
        List.Sublist.map _ (List.filter_sublist _)
      have hnd1 : ((st.sessions.filter goodChannel).map Channel.chanId).Nodup :=
        hnodup.sublist hsub
      apply List.Nodup.map_on _ (List.Nodup.of_map Channel.chanId hnd1)
      intro x hx y hy hxy
      exact List.inj_on_of_nodup_map hnodup
        ((List.mem_filter.mp hx).1) ((List.mem_filter.mp hy).1)
        (congrArg Prod.fst hxy)
    exact countP_eq_one_of_nodup_mem hnd hmem
  · intro hnil
    unfold sendTokensToClient
    rw [hnil]
    rfl
  · intro cnew hnew
    refine ⟨rfl, ?_⟩
    rw [hsent, List.countP_eq_zero]
    intro ev hev
    obtain ⟨d, hd, hde⟩ := List.mem_map.mp hev
    have hdmem : d ∈ st.sessions := (List.mem_filter.mp hd).1
    have : d.chanId ≠ cnew.chanId := fun h =>
      hnew (h ▸ List.mem_map_of_mem Channel.chanId hdmem)
    rw [← hde]
    simpa using this

/-- C8 witness: two open tabs and one closed channel attached; the
deliver fans out to the two open channels exactly once each and prunes
the closed one. -/
theorem sendTokensToClient_fanout_witness :
    (sendTokensToClient "a".data "r".data "u".data
        ⟨[⟨1, WsReadyState.opened, false⟩, ⟨2, WsReadyState.opened, false⟩,
          ⟨3, WsReadyState.closed, false⟩]⟩).2
      = (([⟨1, WsReadyState.opened, false⟩, ⟨2, WsReadyState.opened, false⟩,
          ⟨3, WsReadyState.closed, false⟩] : List Channel).filter goodChannel).map
          (fun c => (c.chanId, authSuccessMessage "a".data "r".data "u".data)) ∧
    (sendTokensToClient "a".data "r".data "u".data
        ⟨[⟨1, WsReadyState.opened, false⟩, ⟨2, WsReadyState.opened, false⟩,
          ⟨3, WsReadyState.closed, false⟩]⟩).1.sessions
      = ([⟨1, WsReadyState.opened, false⟩, ⟨2, WsReadyState.opened, false⟩,
          ⟨3, WsReadyState.closed, false⟩] : List Channel).filter goodChannel ∧
    (∀ c ∈ ([⟨1, WsReadyState.opened, false⟩, ⟨2, WsReadyState.opened, false⟩,
          ⟨3, WsReadyState.closed, false⟩] : List Channel),
      c.readyState = WsReadyState.opened → c.sendFails = false →
      (sendTokensToClient "a".data "r".data "u".data
          ⟨[⟨1, WsReadyState.opened, false⟩, ⟨2, WsReadyState.opened, false⟩,
            ⟨3, WsReadyState.closed, false⟩]⟩).2.countP
          (fun ev => decide (ev
            = (c.chanId, authSuccessMessage "a".data "r".data "u".data))) = 1) ∧
    (([⟨1, WsReadyState.opened, false⟩, ⟨2, WsReadyState.opened, false⟩,
        ⟨3, WsReadyState.closed, false⟩] : List Channel) = [] →
      sendTokensToClient "a".data "r".data "u".data
          ⟨[⟨1, WsReadyState.opened, false⟩, ⟨2, WsReadyState.opened, false⟩,
            ⟨3, WsReadyState.closed, false⟩]⟩ = ({ sessions := [] }, [])) ∧
    (∀ cnew : Channel,
      cnew.chanId ∉ ([⟨1, WsReadyState.opened, false⟩, ⟨2, WsReadyState.opened, false⟩,
          ⟨3, WsReadyState.closed, false⟩] : List Channel).map Channel.chanId →
      (attachWebSocket cnew
          (sendTokensToClient "a".data "r".data "u".data
            ⟨[⟨1, WsReadyState.opened, false⟩, ⟨2, WsReadyState.opened, false⟩,
              ⟨3, WsReadyState.closed, false⟩]⟩).1).sessions
        = (sendTokensToClient "a".data "r".data "u".data
            ⟨[⟨1, WsReadyState.opened, false⟩, ⟨2, WsReadyState.opened, false⟩,
              ⟨3, WsReadyState.closed, false⟩]⟩).1.sessions ++ [cnew] ∧
      (sendTokensToClient "a".data "r".data "u".data
          ⟨[⟨1, WsReadyState.opened, false⟩, ⟨2, WsReadyState.opened, false⟩,
            ⟨3, WsReadyState.closed, false⟩]⟩).2.countP
          (fun ev => ev.1 == cnew.chanId) = 0) :=
  sendTokensToClient_fanout "a".data "r".data "u".data
    ⟨[⟨1, WsReadyState.opened, false⟩, ⟨2, WsReadyState.opened, false⟩,
      ⟨3, WsReadyState.closed, false⟩]⟩ (by decide)

/-! ## C10: the session id is the verification token's primary key -/

/-- C10: `createVerificationToken` embeds its freshly generated `tokenId`
as the payload's `sessionId` and as the inserted row's primary key;
`initiateLogin` returns that same `tokenId` as the attempt's `sessionId`;
and `validateTokenOnly`, run on the resulting store within the validity
window, returns the matched row's id — the same `tokenId` — as
`sessionId`.  The relay address is therefore the stored token row's id. -/
theorem sessionId_is_tokenId (hashToken : Str → Str) (now now' : Int)
    (tokenId plainToken phone : Str) (isNewUser : Bool) (db : DB)
    (hfresh : ∀ r ∈ db.verification_tokens, r.token_hash ≠ hashToken plainToken)
    (hhigh : now' < now + 10 * 60) (hpos : 0 < now)
    (hphone : phone ≠ []) (hsecret : plainToken ≠ []) :
    (∃ q : RawPayload,
      (createVerificationToken hashToken now tokenId plainToken phone isNewUser db).1.1
        = Encoded.payload q ∧ q.sessionId = some tokenId) ∧
    (createVerificationToken hashToken now tokenId plainToken phone isNewUser db).1.2
      = tokenId ∧
    (createVerificationToken hashToken now tokenId plainToken phone
        isNewUser db).2.verification_tokens
      = db.verification_tokens ++
        [{ id := tokenId, token_hash := hashToken plainToken, phone_number := phone,
           expires_at := now + 10 * 60, used_at := none, created_at := now }] ∧
    (∀ rawPhone : Str,
      (initiateLogin hashToken now rawPhone tokenId plainToken true db).1.sessionId
        = some tokenId) ∧
    (validateTokenOnly hashToken now'
        (createVerificationToken hashToken now tokenId plainToken phone isNewUser db).1.1
        phone
        (createVerificationToken hashToken now tokenId plainToken
          phone isNewUser db).2).1.sessionId
      = some tokenId := by
  refine ⟨⟨_, rfl, rfl⟩, rfl, rfl, fun rawPhone => rfl, ?_⟩
  have hdec : decodeTokenPayload now'
      (createVerificationToken hashToken now tokenId plainToken phone isNewUser db).1.1
      = some { token := plainToken, isNewUser := isNewUser, phoneNumber := phone,
               timestamp := now, expiresAt := now + 10 * 60,
               sessionId := some tokenId } := by
    show decodeTokenPayload now' (Encoded.payload
      { token := some plainToken, isNewUser := some isNewUser,
        phoneNumber := some phone, timestamp := some now,
        expiresAt := some (now + 10 * 60), sessionId := some tokenId }) = _
    unfold decodeTokenPayload
    have h1 : plainToken.isEmpty = false := by
      cases plainToken with
      | nil => exact absurd rfl hsecret
      | cons c cs => rfl
    have h2 : phone.isEmpty = false := by
      cases phone with
      | nil => exact absurd rfl hphone
      | cons c cs => rfl
    have h3 : (now == 0) = false := by
      simp only [beq_eq_false_iff_ne, ne_eq]
      omega
    have h4 : (now + 10 * 60 == 0) = false := by
      simp only [beq_eq_false_iff_ne, ne_eq]
      omega
    have h5 : ¬(now + 10 * 60 ≤ now') := by omega
    simp [h1, h2, h3, h4, h5]
    omega
  unfold validateTokenOnly
  rw [hdec]
  dsimp only
  rw [if_neg (not_not_intro rfl)]
  have hnone : db.verification_tokens.find?
      (peekMatch (hashToken plainToken) phone now') = none := by
    rw [List.find?_eq_none]
    intro r hr hp
    unfold peekMatch at hp
    simp only [Bool.and_eq_true, beq_iff_eq] at hp
    exact hfresh r hr hp.1.1
  have hrow : peekMatch (hashToken plainToken) phone now'
      { id := tokenId, token_hash := hashToken plainToken, phone_number := phone,
        expires_at := now + 10 * 60, used_at := none, created_at := now } = true := by
    unfold peekMatch
    simp only [Bool.and_eq_true, beq_iff_eq, decide_eq_true_eq, and_true, true_and]
    omega
  show ((createVerificationToken hashToken now tokenId plainToken phone
      isNewUser db).2.verification_tokens.find?
        (peekMatch (hashToken plainToken) phone now')).map (fun r => r.id)
      = some tokenId
  rw [show (createVerificationToken hashToken now tokenId plainToken phone
        isNewUser db).2.verification_tokens
      = db.verification_tokens ++
        [{ id := tokenId, token_hash := hashToken plainToken, phone_number := phone,
           expires_at := now + 10 * 60, used_at := none, created_at := now }] from rfl]
  rw [List.find?_append, hnone, List.find?_cons_of_pos _ hrow]
  rfl

/-- C10 witness: a concrete create followed by a peek within the window
returns the created row's id as `sessionId` everywhere. -/
theorem sessionId_is_tokenId_witness :
    (∃ q : RawPayload,
      (createVerificationToken (fun s => 'h' :: s) 100 "A".data "sec".data
        "p".data true ⟨[], [], []⟩).1.1 = Encoded.payload q ∧
        q.sessionId = some "A".data) ∧
    (createVerificationToken (fun s => 'h' :: s) 100 "A".data "sec".data
        "p".data true ⟨[], [], []⟩).1.2 = "A".data ∧
    (createVerificationToken (fun s => 'h' :: s) 100 "A".data "sec".data
        "p".data true ⟨[], [], []⟩).2.verification_tokens
      = ([] : List VerificationTokenRow) ++
        [{ id := "A".data, token_hash := (fun (s : Str) => 'h' :: s) "sec".data,
           phone_number := "p".data, expires_at := (100 : Int) + 10 * 60,
           used_at := none, created_at := 100 }] ∧
    (∀ rawPhone : Str,
      (initiateLogin (fun s => 'h' :: s) 100 rawPhone "A".data "sec".data
        true ⟨[], [], []⟩).1.sessionId = some "A".data) ∧
    (validateTokenOnly (fun s => 'h' :: s) 200
        (createVerificationToken (fun s => 'h' :: s) 100 "A".data "sec".data
          "p".data true ⟨[], [], []⟩).1.1
        "p".data
        (createVerificationToken (fun s => 'h' :: s) 100 "A".data "sec".data
          "p".data true ⟨[], [], []⟩).2).1.sessionId
      = some "A".data :=
  sessionId_is_tokenId (fun s => 'h' :: s) 100 200 "A".data "sec".data "p".data
    true ⟨[], [], []⟩ (by simp) (by omega) (by omega) (by decide) (by decide)

/-! ## C2: refresh-token rotation -/

theorem refreshMatch_decomp {th uid : Str} {t : Int} {r : RefreshTokenRow}
    (h : refreshMatch th uid t r = true) :
    r.token_hash = th ∧ r.user_id = uid ∧ t < r.expires_at ∧ r.revoked_at = none := by
  unfold refreshMatch at h
  simp only [Bool.and_eq_true, beq_iff_eq, decide_eq_true_eq] at h
  exact ⟨h.1.1.1, h.1.1.2, h.1.2, h.2⟩

theorem revoke_update_token_hash (i : Str) (t : Int) (r : RefreshTokenRow) :
    ((if r.id == i then { r with revoked_at := some t } else r) :
      RefreshTokenRow).token_hash = r.token_hash := by
  split <;> rfl

/-- A successful `refreshAccessToken` call decomposes into: the presented
row found by `refreshMatch`, the returned pair carrying the new plaintext,
and the store holding the revocation update plus the freshly inserted
row. -/
theorem refresh_success_shape (hashToken : Str → Str) (createJWT : Str → Int → Str)
    (now : Int) (refreshToken userId newTokenId newPlain : Str) (db : DB)
    (pair : TokenPair)
    (h : (refreshAccessToken hashToken createJWT now refreshToken userId
        newTokenId newPlain db).1 = some pair) :
    ∃ tokenRecord,
      db.refresh_tokens.find? (refreshMatch (hashToken refreshToken) userId now)
        = some tokenRecord ∧
      pair.refreshToken = newPlain ∧
      (refreshAccessToken hashToken createJWT now refreshToken userId
          newTokenId newPlain db).2.refresh_tokens
        = (db.refresh_tokens.map (fun r =>
            if r.id == tokenRecord.id then { r with revoked_at := some now } else r))
          ++ [{ id := newTokenId, user_id := userId, token_hash := hashToken newPlain,
                expires_at := now + 30 * 24 * 60 * 60, created_at := now,
                revoked_at := none }] := by
  unfold refreshAccessToken validateRefreshToken at h ⊢
  cases hfind : db.refresh_tokens.find? (refreshMatch (hashToken refreshToken) userId now) with
  | none => rw [hfind] at h; simp at h
  | some tokenRecord =>
    rw [hfind] at h
    dsimp only at h
    refine ⟨tokenRecord, rfl, ?_, rfl⟩
    injection h with h2
    rw [← h2]
    rfl

/-- When the presented refresh token does not validate, the rotation
returns `null`. -/
theorem refreshAccessToken_eq_none (hashToken : Str → Str)
    (createJWT : Str → Int → Str) (now : Int)
    (refreshToken userId newTokenId newPlain : Str) (db : DB)
    (h : validateRefreshToken hashToken now refreshToken userId db = none) :
    (refreshAccessToken hashToken createJWT now refreshToken userId
      newTokenId newPlain db).1 = none := by
  unfold refreshAccessToken
  rw [h]

/-- When the presented refresh token validates, the rotation returns a
token pair. -/
theorem refreshAccessToken_isSome_of_valid (hashToken : Str → Str)
    (createJWT : Str → Int → Str) (now : Int)
    (refreshToken userId newTokenId newPlain : Str) (db : DB)
    (tokenRecord : RefreshTokenRow)
    (h : validateRefreshToken hashToken now refreshToken userId db
      = some tokenRecord) :
    ((refreshAccessToken hashToken createJWT now refreshToken userId
      newTokenId newPlain db).1).isSome = true := by
  unfold refreshAccessToken
  rw [h]
  rfl

/-- C2: after a successful `refreshAccessToken(oldToken, userId)`, the
presented row is revoked, any replay of the old token fails, and the
newly returned refresh token (the fresh plaintext) is accepted exactly
once more within its 30-day expiry: it succeeds once and every call after
that rotation fails.  The uniqueness/freshness hypotheses encode the
UNIQUE `token_hash` constraint and the high-entropy secret generator. -/
theorem refreshAccessToken_rotation (hashToken : Str → Str)
    (createJWT : Str → Int → Str) (now now₂ : Int)
    (oldTok userId newId newPlain id₂ plain₂ : Str) (db : DB) (pair : TokenPair)
    (hsucc : (refreshAccessToken hashToken createJWT now oldTok userId
        newId newPlain db).1 = some pair)
    (huniq : ∀ r₁ ∈ db.refresh_tokens, ∀ r₂ ∈ db.refresh_tokens,
        r₁.token_hash = hashToken oldTok → r₂.token_hash = hashToken oldTok → r₁ = r₂)
    (hfreshNew : ∀ r ∈ db.refresh_tokens, r.token_hash ≠ hashToken newPlain)
    (hneq : hashToken newPlain ≠ hashToken oldTok)
    (hneq₂ : hashToken plain₂ ≠ hashToken newPlain)
    (hexp : now₂ < now + 30 * 24 * 60 * 60) :
    pair.refreshToken = newPlain ∧
    (∀ r ∈ (refreshAccessToken hashToken createJWT now oldTok userId
        newId newPlain db).2.refresh_tokens,
      r.token_hash = hashToken oldTok → r.revoked_at = some now) ∧
    (∀ (nowR : Int) (idR plainR : Str),
      (refreshAccessToken hashToken createJWT nowR oldTok userId idR plainR
        (refreshAccessToken hashToken createJWT now oldTok userId
          newId newPlain db).2).1 = none) ∧
    ((refreshAccessToken hashToken createJWT now₂ newPlain userId id₂ plain₂
        (refreshAccessToken hashToken createJWT now oldTok userId
          newId newPlain db).2).1).isSome = true ∧
    (∀ (now₃ : Int) (id₃ plain₃ : Str),
      (refreshAccessToken hashToken createJWT now₃ newPlain userId id₃ plain₃
        (refreshAccessToken hashToken createJWT now₂ newPlain userId id₂ plain₂
          (refreshAccessToken hashToken createJWT now oldTok userId
            newId newPlain db).2).2).1 = none) := by
  obtain ⟨rec, hfind, hpln, hdb1⟩ :=
    refresh_success_shape hashToken createJWT now oldTok userId newId newPlain db
      pair hsucc
  have hrecmem : rec ∈ db.refresh_tokens := List.mem_of_find?_eq_some hfind
  obtain ⟨hrecHash, hrecUser, hrecExp, hrecRev⟩ :=
    refreshMatch_decomp (List.find?_some hfind)
  -- the revocation invariant (ii)
  have hrev : ∀ r ∈ (refreshAccessToken hashToken createJWT now oldTok userId
      newId newPlain db).2.refresh_tokens,
      r.token_hash = hashToken oldTok → r.revoked_at = some now := by
    intro r hr hh
    rw [hdb1] at hr
    rcases List.mem_append.mp hr with hm | hm
    · obtain ⟨r₀, hr₀, hre⟩ := List.mem_map.mp hm
      have hh₀ : r₀.token_hash = hashToken oldTok := by
        have hhu := revoke_update_token_hash rec.id now r₀
        rw [hre] at hhu
        rw [← hhu]
        exact hh
      have hr₀rec : r₀ = rec := huniq r₀ hr₀ rec hrecmem hh₀ hrecHash
      rw [hr₀rec, if_pos (beq_self_eq_true rec.id)] at hre
      rw [← hre]
    · have hrn := List.mem_singleton.mp hm
      rw [hrn] at hh
      exact absurd hh hneq
  -- the old token can never be presented again (iii)
  have hreplay : ∀ (nowR : Int) (idR plainR : Str),
      (refreshAccessToken hashToken createJWT nowR oldTok userId idR plainR
        (refreshAccessToken hashToken createJWT now oldTok userId
          newId newPlain db).2).1 = none := by
    intro nowR idR plainR
    have hvnone : validateRefreshToken hashToken nowR oldTok userId
        (refreshAccessToken hashToken createJWT now oldTok userId
          newId newPlain db).2 = none := by
      unfold validateRefreshToken
      rw [List.find?_eq_none]
      intro r hr hm
      obtain ⟨hh, -, -, hrv⟩ := refreshMatch_decomp hm
      rw [hrev r hr hh] at hrv
      exact Option.noConfusion hrv
    exact refreshAccessToken_eq_none hashToken createJWT nowR oldTok userId
      idR plainR _ hvnone
  -- the new token is accepted (iv)
  have hnewMem : ({ id := newId, user_id := userId, token_hash := hashToken newPlain, expires_at := now + 30 * 24 * 60 * 60, created_at := now, revoked_at := none } : RefreshTokenRow) ∈ (refreshAccessToken hashToken createJWT now oldTok userId newId newPlain db).2.refresh_tokens := by
    rw [hdb1]
    exact List.mem_append_right _ (by simp)
  have hnewMatch : refreshMatch (hashToken newPlain) userId now₂ { id := newId, user_id := userId, token_hash := hashToken newPlain, expires_at := now + 30 * 24 * 60 * 60, created_at := now, revoked_at := none } = true := by
    unfold refreshMatch
    simp only [Bool.and_eq_true, beq_iff_eq, decide_eq_true_eq, and_true, true_and]
    exact hexp
  have haccept : ((refreshAccessToken hashToken createJWT now₂ newPlain userId
      id₂ plain₂ (refreshAccessToken hashToken createJWT now oldTok userId
        newId newPlain db).2).1).isSome = true := by
    have hvsome : (validateRefreshToken hashToken now₂ newPlain userId
        (refreshAccessToken hashToken createJWT now oldTok userId
          newId newPlain db).2).isSome = true := by
      unfold validateRefreshToken
      rw [List.find?_isSome]
      exact ⟨_, hnewMem, hnewMatch⟩
    obtain ⟨rec₂p, hf2⟩ := Option.isSome_iff_exists.mp hvsome
    exact refreshAccessToken_isSome_of_valid hashToken createJWT now₂ newPlain
      userId id₂ plain₂ _ rec₂p hf2
  refine ⟨hpln, hrev, hreplay, haccept, ?_⟩
  -- the new token is accepted only once (v)
  obtain ⟨pair₂, hpair₂⟩ := Option.isSome_iff_exists.mp haccept
  obtain ⟨rec₂, hfind₂, hpln₂, hdb2⟩ :=
    refresh_success_shape hashToken createJWT now₂ newPlain userId id₂ plain₂
      (refreshAccessToken hashToken createJWT now oldTok userId
        newId newPlain db).2 pair₂ hpair₂
  have hrec₂mem := List.mem_of_find?_eq_some hfind₂
  obtain ⟨hrec₂hash, -, -, -⟩ := refreshMatch_decomp (List.find?_some hfind₂)
  have hrec₂eq : rec₂ = { id := newId, user_id := userId, token_hash := hashToken newPlain, expires_at := now + 30 * 24 * 60 * 60, created_at := now, revoked_at := none } := by
    rw [hdb1] at hrec₂mem
    rcases List.mem_append.mp hrec₂mem with hm | hm
    · exfalso
      obtain ⟨r₀, hr₀, hre⟩ := List.mem_map.mp hm
      apply hfreshNew r₀ hr₀
      have hhu := revoke_update_token_hash rec.id now r₀
      rw [hre] at hhu
      rw [← hhu]
      exact hrec₂hash
    · simpa using hm
  intro now₃ id₃ plain₃
  have hvnone₃ : validateRefreshToken hashToken now₃ newPlain userId
      (refreshAccessToken hashToken createJWT now₂ newPlain userId id₂ plain₂
        (refreshAccessToken hashToken createJWT now oldTok userId
          newId newPlain db).2).2 = none := by
    unfold validateRefreshToken
    rw [List.find?_eq_none]
    intro r hr hm
    obtain ⟨hh, -, -, hrv⟩ := refreshMatch_decomp hm
    rw [hdb2] at hr
    rcases List.mem_append.mp hr with hma | hma
    · obtain ⟨r₁, hr₁, hre₁⟩ := List.mem_map.mp hma
      rw [hdb1] at hr₁
      rcases List.mem_append.mp hr₁ with hmb | hmb
      · obtain ⟨r₀, hr₀, hre₀⟩ := List.mem_map.mp hmb
        apply hfreshNew r₀ hr₀
        have hhu₀ := revoke_update_token_hash rec.id now r₀
        rw [hre₀] at hhu₀
        have hhu₁ := revoke_update_token_hash rec₂.id now₂ r₁
        rw [hre₁] at hhu₁
        rw [← hhu₀, ← hhu₁]
        exact hh
      · have hr₁n := List.mem_singleton.mp hmb
        rw [hr₁n, hrec₂eq, if_pos (beq_self_eq_true newId)] at hre₁
        rw [← hre₁] at hrv
        exact Option.noConfusion hrv
    · have hrn := List.mem_singleton.mp hma
      rw [hrn] at hh
      exact absurd hh hneq₂
  exact refreshAccessToken_eq_none hashToken createJWT now₃ newPlain userId
    id₃ plain₃ _ hvnone₃

/-- C2 witness: a store with one valid refresh row; the rotation revokes
it, replay fails, and the fresh token works exactly once more. -/
theorem refreshAccessToken_rotation_witness :
    (refreshAccessToken (fun s => 'h' :: s) (fun u _ => 'j' :: u) 100
        "old".data "U".data "N1".data "new".data
        ⟨[], [], [⟨"R0".data, "U".data, 'h' :: "old".data, 1000, 1, none⟩]⟩).1
      = some { accessToken := 'j' :: "U".data, refreshToken := "new".data } ∧
    ((refreshAccessToken (fun s => 'h' :: s) (fun u _ => 'j' :: u) 200
        "old".data "U".data "N2".data "p2".data
        (refreshAccessToken (fun s => 'h' :: s) (fun u _ => 'j' :: u) 100
          "old".data "U".data "N1".data "new".data
          ⟨[], [], [⟨"R0".data, "U".data, 'h' :: "old".data, 1000, 1, none⟩]⟩).2).1
      = none) ∧
    ((refreshAccessToken (fun s => 'h' :: s) (fun u _ => 'j' :: u) 200
        "new".data "U".data "N2".data "p2".data
        (refreshAccessToken (fun s => 'h' :: s) (fun u _ => 'j' :: u) 100
          "old".data "U".data "N1".data "new".data
          ⟨[], [], [⟨"R0".data, "U".data, 'h' :: "old".data, 1000, 1, none⟩]⟩).2).1).isSome
      = true ∧
    ((refreshAccessToken (fun s => 'h' :: s) (fun u _ => 'j' :: u) 300
        "new".data "U".data "N3".data "p3".data
        (refreshAccessToken (fun s => 'h' :: s) (fun u _ => 'j' :: u) 200
          "new".data "U".data "N2".data "p2".data
          (refreshAccessToken (fun s => 'h' :: s) (fun u _ => 'j' :: u) 100
            "old".data "U".data "N1".data "new".data
            ⟨[], [], [⟨"R0".data, "U".data, 'h' :: "old".data, 1000, 1, none⟩]⟩).2).2).1
      = none) := by
  have h := refreshAccessToken_rotation (fun s => 'h' :: s) (fun u _ => 'j' :: u)
      100 200 "old".data "U".data "N1".data "new".data "N2".data "p2".data
      ⟨[], [], [⟨"R0".data, "U".data, 'h' :: "old".data, 1000, 1, none⟩]⟩
      { accessToken := 'j' :: "U".data, refreshToken := "new".data }
      (by decide) (by decide) (by decide) (by decide) (by decide) (by omega)
  exact ⟨by decide, h.2.2.1 200 "N2".data "p2".data, h.2.2.2.1,
    h.2.2.2.2 300 "N3".data "p3".data⟩

/-! ## C1: a verification token is consumable at most once -/

theorem decode_token_field (now : Int) (q : RawPayload) (p : TokenPayload)
    (h : decodeTokenPayload now (Encoded.payload q) = some p) :
    q.token = some p.token := by
  unfold decodeTokenPayload at h
  rcases q with ⟨tk, inu, ph, ts, ex, sid⟩
  dsimp only at h ⊢
  cases tk with
  | none => exact Option.noConfusion h
  | some tk =>
  cases inu with
  | none => exact Option.noConfusion h
  | some inu =>
  cases ph with
  | none => exact Option.noConfusion h
  | some ph =>
  cases ts with
  | none => exact Option.noConfusion h
  | some ts =>
  cases ex with
  | none => exact Option.noConfusion h
  | some ex =>
  dsimp only at h
  by_cases h0 : (tk.isEmpty || ph.isEmpty || (ts == 0) || (ex == 0)) = true
  · rw [if_pos h0] at h
    exact Option.noConfusion h
  · rw [if_neg h0] at h
    by_cases h1 : ex ≤ now
    · rw [if_pos h1] at h
      exact Option.noConfusion h
    · rw [if_neg h1] at h
      injection h with h2
      rw [← h2]

theorem mem_verification_of_applyOp_create (hashToken : Str → Str) (now : Int)
    (tokenId plainToken phoneNumber : Str) (isNewUser : Bool) (db : DB)
    {r : VerificationTokenRow}
    (hr : r ∈ (applyOp hashToken
      (Op.create now tokenId plainToken phoneNumber isNewUser) db).verification_tokens) :
    r ∈ db.verification_tokens ∨
      r = { id := tokenId, token_hash := hashToken plainToken, phone_number := phoneNumber, expires_at := now + 10 * 60, used_at := none, created_at := now } := by
  simp only [applyOp, createVerificationToken] at hr
  rcases List.mem_append.mp hr with hm | hm
  · exact Or.inl hm
  · exact Or.inr (List.mem_singleton.mp hm)

/-- The `used_at := now` update of a consume never changes a row's id or
token hash. -/
theorem consume_update_fields (i : Str) (t : Int) (r : VerificationTokenRow) :
    ((if r.id == i then { r with used_at := some t } else r) :
      VerificationTokenRow).id = r.id ∧
    ((if r.id == i then { r with used_at := some t } else r) :
      VerificationTokenRow).token_hash = r.token_hash := by
  constructor <;> (split <;> rfl)

/-- The PRIMARY KEY invariant is preserved by every well-formed
operation. -/
theorem nodupVtIds_applyOp (hashToken : Str → Str) (op : Op) (db : DB)
    (hWF : WFOp op db) (h : NodupVtIds db) :
    NodupVtIds (applyOp hashToken op db) := by
  cases op with
  | create now tokenId plainToken phoneNumber isNewUser =>
    unfold WFOp at hWF
    unfold NodupVtIds at h ⊢
    simp only [applyOp, createVerificationToken]
    rw [List.map_append]
    rw [List.nodup_append]
    refine ⟨h, List.nodup_singleton _, ?_⟩
    intro x hx hx1
    have : x = tokenId := by simpa using hx1
    rw [this] at hx
    exact hWF hx
  | consume now e phone =>
    unfold NodupVtIds at h ⊢
    rcases consume_db_cases hashToken now e phone db with heq | ⟨rec, hmem, hru, heq⟩
    · simp only [applyOp]
      rw [heq]
      exact h
    · simp only [applyOp]
      rw [heq]
      dsimp only
      rw [List.map_map]
      have hfun : (VerificationTokenRow.id ∘ fun r =>
          if r.id == rec.id then { r with used_at := some now } else r)
          = VerificationTokenRow.id := by
        funext r
        exact (consume_update_fields rec.id now r).1
      rw [hfun]
      exact h
  | peek now e phone =>
    unfold NodupVtIds at h ⊢
    simp only [applyOp]
    rw [validateTokenOnly_db_eq]
    exact h
  | createRefresh now tokenId plainToken userId => exact h
  | revokeRefresh now tokenId => exact h
  | revokeAll now userId => exact h
  | cleanup now =>
    unfold NodupVtIds at h ⊢
    simp only [applyOp, cleanupExpiredTokens]
    exact h.sublist (List.Sublist.map _ (List.filter_sublist _))

/-- `HashUsedAt` is preserved by every operation that does not insert a
fresh row with the same hash (given distinct ids). -/
theorem hashUsedAt_applyOp (hashToken : Str → Str) (op : Op) (db : DB)
    (h : Str) (t : Int) (hinv : HashUsedAt h t db) (hnd : NodupVtIds db)
    (hop : opCreatesHash hashToken op h = false) :
    HashUsedAt h t (applyOp hashToken op db) := by
  cases op with
  | create now tokenId plainToken phoneNumber isNewUser =>
    intro r hr hrh
    rcases mem_verification_of_applyOp_create hashToken now tokenId plainToken
        phoneNumber isNewUser db hr with hm | hm
    · exact hinv r hm hrh
    · exfalso
      unfold opCreatesHash at hop
      rw [hm] at hrh
      exact absurd hrh (beq_eq_false_iff_ne.mp hop)
  | consume now e phone =>
    intro r hr hrh
    rcases consume_db_cases hashToken now e phone db with heq | ⟨rec, hmem, hru, heq⟩
    · simp only [applyOp] at hr
      rw [heq] at hr
      exact hinv r hr hrh
    · simp only [applyOp] at hr
      rw [heq] at hr
      dsimp only at hr
      obtain ⟨r₀, hr₀, hre⟩ := List.mem_map.mp hr
      have hh₀ : r₀.token_hash = h := by
        have hf := (consume_update_fields rec.id now r₀).2
        rw [hre] at hf
        rw [← hf]
        exact hrh
      have hu₀ := hinv r₀ hr₀ hh₀
      have hne : (r₀.id == rec.id) = false := by
        rw [beq_eq_false_iff_ne]
        intro hid
        have hr₀rec : r₀ = rec :=
          List.inj_on_of_nodup_map hnd hr₀ hmem hid
        rw [hr₀rec, hru] at hu₀
        exact Option.noConfusion hu₀
      rw [hne] at hre
      simp only [Bool.false_eq_true, if_false] at hre
      rw [← hre]
      exact hu₀
  | peek now e phone =>
    intro r hr hrh
    simp only [applyOp] at hr
    rw [validateTokenOnly_db_eq] at hr
    exact hinv r hr hrh
  | createRefresh now tokenId plainToken userId => exact hinv
  | revokeRefresh now tokenId => exact hinv
  | revokeAll now userId => exact hinv
  | cleanup now =>
    intro r hr hrh
    simp only [applyOp, cleanupExpiredTokens] at hr
    exact hinv r (List.mem_of_mem_filter hr) hrh

/-- `UsedAtSet` is preserved by every operation that does not insert a
fresh row with the same id. -/
theorem usedAtSet_applyOp (hashToken : Str → Str) (op : Op) (db : DB)
    (i : Str) (t : Int) (hinv : UsedAtSet i t db)
    (hop : opCreatesId op i = false) :
    UsedAtSet i t (applyOp hashToken op db) := by
  cases op with
  | create now tokenId plainToken phoneNumber isNewUser =>
    intro r hr hri
    rcases mem_verification_of_applyOp_create hashToken now tokenId plainToken
        phoneNumber isNewUser db hr with hm | hm
    · exact hinv r hm hri
    · exfalso
      unfold opCreatesId at hop
      rw [hm] at hri
      exact absurd hri (beq_eq_false_iff_ne.mp hop)
  | consume now e phone =>
    intro r hr hri
    rcases consume_db_cases hashToken now e phone db with heq | ⟨rec, hmem, hru, heq⟩
    · simp only [applyOp] at hr
      rw [heq] at hr
      exact hinv r hr hri
    · simp only [applyOp] at hr
      rw [heq] at hr
      dsimp only at hr
      obtain ⟨r₀, hr₀, hre⟩ := List.mem_map.mp hr
      have hid₀ : r₀.id = i := by
        have hf := (consume_update_fields rec.id now r₀).1
        rw [hre] at hf
        rw [← hf]
        exact hri
      have hu₀ := hinv r₀ hr₀ hid₀
      have hne : (r₀.id == rec.id) = false := by
        rw [beq_eq_false_iff_ne]
        intro hid
        have hreci : rec.id = i := by rw [← hid, hid₀]
        have := hinv rec hmem hreci
        rw [hru] at this
        exact Option.noConfusion this
      rw [hne] at hre
      simp only [Bool.false_eq_true, if_false] at hre
      rw [← hre]
      exact hu₀
  | peek now e phone =>
    intro r hr hri
    simp only [applyOp] at hr
    rw [validateTokenOnly_db_eq] at hr
    exact hinv r hr hri
  | createRefresh now tokenId plainToken userId => exact hinv
  | revokeRefresh now tokenId => exact hinv
  | revokeAll now userId => exact hinv
  | cleanup now =>
    intro r hr hri
    simp only [applyOp, cleanupExpiredTokens] at hr
    exact hinv r (List.mem_of_mem_filter hr) hri

/-- Trace version: once every row with hash `h` is spent at `t` and ids
are distinct, both facts persist through any well-formed trace that never
inserts a row with hash `h`. -/
theorem hashUsedAt_applyOps (hashToken : Str → Str) (ops : List Op) (db : DB)
    (h : Str) (t : Int) (hinv : HashUsedAt h t db) (hnd : NodupVtIds db)
    (hWF : WFOps hashToken ops db)
    (hops : ∀ op ∈ ops, opCreatesHash hashToken op h = false) :
    HashUsedAt h t (applyOps hashToken ops db) ∧
      NodupVtIds (applyOps hashToken ops db) := by
  induction ops generalizing db with
  | nil => exact ⟨hinv, hnd⟩
  | cons op ops ih =>
    unfold WFOps at hWF
    obtain ⟨hWF1, hWFrest⟩ := hWF
    have hop : opCreatesHash hashToken op h = false := hops op (by simp)
    exact ih (applyOp hashToken op db)
      (hashUsedAt_applyOp hashToken op db h t hinv hnd hop)
      (nodupVtIds_applyOp hashToken op db hWF1 hnd) hWFrest
      (fun o ho => hops o (List.mem_cons_of_mem op ho))

/-- Trace version of `UsedAtSet` preservation. -/
theorem usedAtSet_applyOps (hashToken : Str → Str) (ops : List Op) (db : DB)
    (i : Str) (t : Int) (hinv : UsedAtSet i t db)
    (hops : ∀ op ∈ ops, opCreatesId op i = false) :
    UsedAtSet i t (applyOps hashToken ops db) := by
  induction ops generalizing db with
  | nil => exact hinv
  | cons op ops ih =>
    exact ih (applyOp hashToken op db)
      (usedAtSet_applyOp hashToken op db i t hinv (hops op (by simp)))
      (fun o ho => hops o (List.mem_cons_of_mem op ho))

/-- On a store where every row with the presented secret's hash is spent,
a consume presenting that secret fails. -/
theorem consume_fails_of_hashUsed (hashToken : Str → Str) (nowQ : Int)
    (q : RawPayload) (phoneQ : Str) (db : DB) (h : Str) (t : Int)
    (hinv : HashUsedAt h t db)
    (hq : ∀ p, decodeTokenPayload nowQ (Encoded.payload q) = some p →
      hashToken p.token = h) :
    (validateAndConsumeToken hashToken nowQ (Encoded.payload q) phoneQ db).1.isValid
      = false := by
  cases hv : (validateAndConsumeToken hashToken nowQ (Encoded.payload q) phoneQ db).1.isValid with
  | false => rfl
  | true =>
    exfalso
    obtain ⟨p, rec, hdec, hph, hfind, -⟩ :=
      consume_success_shape hashToken nowQ (Encoded.payload q) phoneQ db hv
    have hh := hq p hdec
    have hp := List.find?_some hfind
    unfold consumeMatch at hp
    simp only [Bool.and_eq_true, beq_iff_eq] at hp
    have hmem := List.mem_of_find?_eq_some hfind
    have hspent := hinv rec hmem (by rw [hp.1.1.1, hh])
    rw [hp.2] at hspent
    exact Option.noConfusion hspent

/-- C1: consumption succeeds at most once.  If `validateAndConsumeToken`
succeeds for a secret and phone, then (a) the unique matching row (which
was unspent) now carries `used_at = some now`; (b) after any well-formed
trace of further store operations that never regenerates the same secret
hash, presenting the same secret again — under any phone and any clock —
returns invalid; (c) the spent mark persists unchanged through the trace;
and (d) `used_at`, once set on any row, is never changed by any operation
of the trace.  The hypotheses encode the PRIMARY KEY and UNIQUE
constraints and the high-entropy secret/id generators. -/
theorem validateAndConsumeToken_at_most_once (hashToken : Str → Str)
    (now : Int) (e : Encoded) (phone : Str) (db : DB)
    (payload : TokenPayload) (ops : List Op)
    (hdec : decodeTokenPayload now e = some payload)
    (hsucc : (validateAndConsumeToken hashToken now e phone db).1.isValid = true)
    (hnd : NodupVtIds db)
    (huniq : ∀ r₁ ∈ db.verification_tokens, ∀ r₂ ∈ db.verification_tokens,
      r₁.token_hash = hashToken payload.token →
      r₂.token_hash = hashToken payload.token → r₁ = r₂)
    (hWF : WFOps hashToken ops (validateAndConsumeToken hashToken now e phone db).2)
    (hops : ∀ op ∈ ops,
      opCreatesHash hashToken op (hashToken payload.token) = false) :
    (∃ rec ∈ db.verification_tokens,
      rec.token_hash = hashToken payload.token ∧ rec.used_at = none) ∧
    HashUsedAt (hashToken payload.token) now
      (validateAndConsumeToken hashToken now e phone db).2 ∧
    (∀ (nowQ : Int) (phoneQ : Str) (q : RawPayload),
      q.token = some payload.token →
      (validateAndConsumeToken hashToken nowQ (Encoded.payload q) phoneQ
        (applyOps hashToken ops
          (validateAndConsumeToken hashToken now e phone db).2)).1.isValid = false) ∧
    HashUsedAt (hashToken payload.token) now
      (applyOps hashToken ops (validateAndConsumeToken hashToken now e phone db).2) ∧
    (∀ (i : Str) (ti : Int), (∀ op ∈ ops, opCreatesId op i = false) →
      UsedAtSet i ti (validateAndConsumeToken hashToken now e phone db).2 →
      UsedAtSet i ti (applyOps hashToken ops
        (validateAndConsumeToken hashToken now e phone db).2)) := by
  obtain ⟨payloadS, rec, hdecS, hph, hfind, heq⟩ :=
    consume_success_shape hashToken now e phone db hsucc
  have hps : payloadS = payload := by
    rw [hdec] at hdecS
    exact (Option.some.injEq _ _).mp hdecS.symm
  rw [hps] at hph hfind heq
  have hmatch := List.find?_some hfind
  unfold consumeMatch at hmatch
  simp only [Bool.and_eq_true, beq_iff_eq] at hmatch
  have hmem := List.mem_of_find?_eq_some hfind
  have hrecHash : rec.token_hash = hashToken payload.token := hmatch.1.1.1
  have hrecUnused : rec.used_at = none := hmatch.2
  have hinv1 : HashUsedAt (hashToken payload.token) now
      (validateAndConsumeToken hashToken now e phone db).2 := by
    intro r hr hrh
    rw [heq] at hr
    dsimp only at hr
    obtain ⟨r₀, hr₀, hre⟩ := List.mem_map.mp hr
    have hh₀ : r₀.token_hash = hashToken payload.token := by
      have hf := (consume_update_fields rec.id now r₀).2
      rw [hre] at hf
      rw [← hf]
      exact hrh
    have hr₀rec : r₀ = rec := huniq r₀ hr₀ rec hmem hh₀ hrecHash
    rw [hr₀rec, if_pos (beq_self_eq_true rec.id)] at hre
    rw [← hre]
  have hnd1 : NodupVtIds (validateAndConsumeToken hashToken now e phone db).2 :=
    nodupVtIds_applyOp hashToken (Op.consume now e phone) db trivial hnd
  obtain ⟨hinvF, hndF⟩ := hashUsedAt_applyOps hashToken ops
    (validateAndConsumeToken hashToken now e phone db).2
    (hashToken payload.token) now hinv1 hnd1 hWF hops
  refine ⟨⟨rec, hmem, hrecHash, hrecUnused⟩, hinv1, ?_, hinvF, ?_⟩
  · intro nowQ phoneQ q hqt
    apply consume_fails_of_hashUsed hashToken nowQ q phoneQ _
      (hashToken payload.token) now hinvF
    intro p hdecQ
    have := decode_token_field nowQ q p hdecQ
    rw [hqt] at this
    rw [(Option.some.injEq _ _).mp this.symm]
  · intro i ti hopsI hset
    exact usedAtSet_applyOps hashToken ops _ i ti hset hopsI

/-- C1 witness: one unused stored row; the consume succeeds, marks it
spent, and a replay of the same secret (over the empty trace) fails. -/
theorem validateAndConsumeToken_at_most_once_witness :
    (∃ rec ∈ ([⟨"A".data, 'h' :: "sec".data, "p".data, 100, none, 1⟩] :
        List VerificationTokenRow),
      rec.token_hash = (fun (s : Str) => 'h' :: s) "sec".data ∧
      rec.used_at = none) ∧
    HashUsedAt ((fun (s : Str) => 'h' :: s) "sec".data) 50
      (validateAndConsumeToken (fun s => 'h' :: s) 50
        (Encoded.payload ⟨some "sec".data, some true, some "p".data,
          some 1, some 100, some "A".data⟩) "p".data
        ⟨[], [⟨"A".data, 'h' :: "sec".data, "p".data, 100, none, 1⟩], []⟩).2 ∧
    (∀ (nowQ : Int) (phoneQ : Str) (q : RawPayload),
      q.token = some "sec".data →
      (validateAndConsumeToken (fun s => 'h' :: s) nowQ (Encoded.payload q) phoneQ
        (applyOps (fun s => 'h' :: s) []
          (validateAndConsumeToken (fun s => 'h' :: s) 50
            (Encoded.payload ⟨some "sec".data, some true, some "p".data,
              some 1, some 100, some "A".data⟩) "p".data
            ⟨[], [⟨"A".data, 'h' :: "sec".data, "p".data, 100, none, 1⟩],
             []⟩).2)).1.isValid = false) ∧
    HashUsedAt ((fun (s : Str) => 'h' :: s) "sec".data) 50
      (applyOps (fun s => 'h' :: s) []
        (validateAndConsumeToken (fun s => 'h' :: s) 50
          (Encoded.payload ⟨some "sec".data, some true, some "p".data,
            some 1, some 100, some "A".data⟩) "p".data
          ⟨[], [⟨"A".data, 'h' :: "sec".data, "p".data, 100, none, 1⟩], []⟩).2) ∧
    (∀ (i : Str) (ti : Int), (∀ op ∈ ([] : List Op), opCreatesId op i = false) →
      UsedAtSet i ti
        (validateAndConsumeToken (fun s => 'h' :: s) 50
          (Encoded.payload ⟨some "sec".data, some true, some "p".data,
            some 1, some 100, some "A".data⟩) "p".data
          ⟨[], [⟨"A".data, 'h' :: "sec".data, "p".data, 100, none, 1⟩], []⟩).2 →
      UsedAtSet i ti (applyOps (fun s => 'h' :: s) []
        (validateAndConsumeToken (fun s => 'h' :: s) 50
          (Encoded.payload ⟨some "sec".data, some true, some "p".data,
            some 1, some 100, some "A".data⟩) "p".data
          ⟨[], [⟨"A".data, 'h' :: "sec".data, "p".data, 100, none, 1⟩], []⟩).2)) := by
  have h := validateAndConsumeToken_at_most_once (fun s => 'h' :: s) 50
      (Encoded.payload ⟨some "sec".data, some true, some "p".data,
        some 1, some 100, some "A".data⟩) "p".data
      ⟨[], [⟨"A".data, 'h' :: "sec".data, "p".data, 100, none, 1⟩], []⟩
      ⟨"sec".data, true, "p".data, 1, 100, some "A".data⟩ []
      (by decide) (by decide) (by unfold NodupVtIds; decide)
      (by decide) trivial (by simp)
  exact h

end WhatsAppAuth
